import Mathlib

set_option maxHeartbeats 1000000

/-!
Shallow embedding of the 2048 engine in `src/2048/Twenty.py`.

The embedded fragment is the game-state engine: the `Twenty` class
(`playGrid`, `blocks`, `spawn_block`, `move`, `__init__`) and the logical
part of the `Block` class (`row`, `col`, `val`, `move`, `double`).
Presentation-only state (`rect`, `dx`, `dy`, `dt`, `pulsing`, `maxpulse`,
`pressed`, the `GLabel` construction in `spawn_block`, and `pulse()` calls
inside `move`) is omitted: it never feeds back into the grid or into the
row/col/val of a block.

Python's two global `random.choice` calls in `spawn_block` are modelled by
two explicit `Nat` indices (`vIdx` for the value, `cIdx` for the cell);
`random.choice l` becomes `l.getD (idx % l.length) _`, and
`random.choice []`, which raises `IndexError` in Python, becomes
`EngineError.indexError`.
-/

/-- The 4×4 play grid, `self.playGrid` in the source: a nested Python list
of cell values, 0 meaning empty. -/
abbrev Grid := List (List Nat)

/-- Reading `self.playGrid[r][c]`.  Every access performed by the source is
in bounds, so the out-of-range default 0 is never consulted on the states
the engine produces. -/
def gridGet (g : Grid) (r c : Nat) : Nat := (g.getD r []).getD c 0

/-- The assignment `self.playGrid[r][c] = v`. -/
def gridSet (g : Grid) (r c v : Nat) : Grid := g.set r ((g.getD r []).set c v)

/-- The logical state of the source's `Block` class: `self.row`,
`self.col`, `self.val`.  The extra field `dbl` is ghost instrumentation:
it counts how many times `Block.double` has been invoked on this block
(the source has no such field; `dbl` is incremented exactly where the
source calls `.double()` and read by no game operation). -/
structure Block where
row : Nat
col : Nat
val : Nat
dbl : Nat
deriving DecidableEq, Repr

namespace Block

/-- `Block.move(self, newrow, newcol)`. -/
def move (b : Block) (newrow newcol : Nat) : Block :=
  { b with row := newrow, col := newcol }

/-- `Block.double(self)`: `self.val *= 2` (plus the ghost counter). -/
def double (b : Block) : Block :=
  { b with val := b.val * 2, dbl := b.dbl + 1 }

end Block

/-- The state of the `Twenty` class: the tile registry `self.blocks`
(insertion-ordered Python list) and the grid `self.playGrid`. -/
structure Twenty where
blocks : List Block
playGrid : Grid
deriving DecidableEq, Repr

/-- Failure modes of the embedded fragment.  `indexError` is Python's
`IndexError` raised by `random.choice` on an empty sequence (reachable
only from `spawn_block` on a full grid).  `Twenty.getBlock`'s
`ValueError('No such block')` is modelled by making the fused
lookup-and-mutate helpers (`updateFirstAt`, `removeFirstAt`) no-ops when
no block matches; this situation is unreachable from well-formed states
(see `invariant_preservation`). -/
inductive EngineError where
| indexError : EngineError
deriving DecidableEq, Repr

/-- `Twenty.getBlock(self, row, col)`: the source scans `self.blocks` in
order and returns the first block at `(row, col)`, raising `ValueError`
when there is none.  `Option` stands for the raise. -/
def getBlock (bs : List Block) (r c : Nat) : Option Block :=
  bs.find? (fun b => b.row == r && b.col == c)

/-- `self.getBlock(r, c).f()` for a mutating method `f`: the first block
of `self.blocks` at position `(r, c)` is mutated in place, list order
preserved.  When no block matches, the source raises `ValueError`; the
embedding leaves the list unchanged (unreachable from well-formed
states). -/
def updateFirstAt : List Block → Nat → Nat → (Block → Block) → List Block
| [], _, _, _ => []
| b :: bs, r, c, f =>
    if b.row = r ∧ b.col = c then f b :: bs
    else b :: updateFirstAt bs r c f

/-- `self.removeBlock(self.getBlock(r, c))`: Python `list.remove` deletes
the first occurrence of the object returned by `getBlock`, which is the
first block at `(r, c)`. -/
def removeFirstAt : List Block → Nat → Nat → List Block
| [], _, _ => []
| b :: bs, r, c =>
    if b.row = r ∧ b.col = c then bs
    else b :: removeFirstAt bs r c

namespace Twenty

/-- Class variable `SPAWNABLE = (2, 4)`. -/
def SPAWNABLE : List Nat := [2, 4]

/-- The accumulator loop of `spawn_block`: all empty cells in row-major
order (`for row in range(4): for col in range(4): if grid[row][col]==0`). -/
def emptyCellsOf (g : Grid) : List (Nat × Nat) :=
  (List.range 4).flatMap fun row =>
    (List.range 4).filterMap fun col =>
      if gridGet g row col = 0 then some (row, col) else none

/-- `Twenty.spawn_block(self)`.  `vIdx` and `cIdx` stand for the two
`random.choice` draws (value, then location); `random.choice` on the
empty candidate list raises `IndexError`. -/
def spawn_block (t : Twenty) (vIdx cIdx : Nat) : Except EngineError Twenty :=
  let value := SPAWNABLE.getD (vIdx % SPAWNABLE.length) 0
  let acc := emptyCellsOf t.playGrid
  if acc = [] then .error .indexError
  else
    let nl := acc.getD (cIdx % acc.length) (0, 0)
    .ok { blocks := t.blocks ++ [⟨nl.1, nl.2, value, 0⟩],
          playGrid := gridSet t.playGrid nl.1 nl.2 value }

/-- The three statements of every slide-while-loop body in `move`:
`grid[r'][c'] = grid[r][c]; grid[r][c] = 0; getBlock(r,c).move(r',c')`,
with `(r', c')` the neighbouring cell toward the target edge. -/
def slideStep (g : Grid) (bs : List Block) (r c r' c' : Nat) :
    Grid × List Block :=
  (gridSet (gridSet g r' c' (gridGet g r c)) r c 0,
   updateFirstAt bs r c (fun b => b.move r' c'))

/-- The merge branch of `move`: `grid[r'][c'] *= 2; grid[r][c] = 0;
getBlock(r',c').double(); removeBlock(getBlock(r,c))`, with `(r', c')`
the target cell (the one closer to the edge) and `(r, c)` the source.
(The `pulse()` call is presentation-only and omitted.) -/
def mergeStep (g : Grid) (bs : List Block) (r c r' c' : Nat) :
    Grid × List Block :=
  (gridSet (gridSet g r' c' (gridGet g r' c' * 2)) r c 0,
   removeFirstAt (updateFirstAt bs r' c' Block.double) r c)

/-- `while r > 0 and grid[r-1][c] == 0: ...; r -= 1` (direction `up`).
The fuel argument bounds the iteration count structurally; the loop runs
at most `r ≤ 3` times, and every caller passes fuel 3, so the bounded
loop agrees with the unbounded source loop (the exit condition provably
fails at the returned index, see `slideUpLoop_spec`). -/
def slideUpLoop : Nat → Grid → List Block → Nat → Nat → Grid × List Block × Nat
| 0, g, bs, r, _ => (g, bs, r)
| fuel + 1, g, bs, r, c =>
    if 0 < r ∧ gridGet g (r - 1) c = 0 then
      let p := slideStep g bs r c (r - 1) c
      slideUpLoop fuel p.1 p.2 (r - 1) c
    else (g, bs, r)

/-- `while r < 3 and grid[r+1][c] == 0: ...; r += 1` (direction `down`). -/
def slideDownLoop : Nat → Grid → List Block → Nat → Nat → Grid × List Block × Nat
| 0, g, bs, r, _ => (g, bs, r)
| fuel + 1, g, bs, r, c =>
    if r < 3 ∧ gridGet g (r + 1) c = 0 then
      let p := slideStep g bs r c (r + 1) c
      slideDownLoop fuel p.1 p.2 (r + 1) c
    else (g, bs, r)

/-- `while c < 3 and grid[r][c+1] == 0: ...; c += 1` (direction `right`). -/
def slideRightLoop : Nat → Grid → List Block → Nat → Nat → Grid × List Block × Nat
| 0, g, bs, _, c => (g, bs, c)
| fuel + 1, g, bs, r, c =>
    if c < 3 ∧ gridGet g r (c + 1) = 0 then
      let p := slideStep g bs r c r (c + 1)
      slideRightLoop fuel p.1 p.2 r (c + 1)
    else (g, bs, c)

/-- `while c > 0 and grid[r][c-1] == 0: ...; c -= 1` (direction `left`). -/
def slideLeftLoop : Nat → Grid → List Block → Nat → Nat → Grid × List Block × Nat
| 0, g, bs, _, c => (g, bs, c)
| fuel + 1, g, bs, r, c =>
    if 0 < c ∧ gridGet g r (c - 1) = 0 then
      let p := slideStep g bs r c r (c - 1)
      slideLeftLoop fuel p.1 p.2 r (c - 1)
    else (g, bs, c)

/-- The body of the `up` sweep for one cell `(row, col)`: skip empty
cells, slide, then merge once upward if the neighbour matches. -/
def processUp (s : Grid × List Block) (row col : Nat) : Grid × List Block :=
  if gridGet s.1 row col ≠ 0 then
    let q := slideUpLoop 3 s.1 s.2 row col
    if 0 < q.2.2 ∧ gridGet q.1 (q.2.2 - 1) col = gridGet q.1 q.2.2 col then
      mergeStep q.1 q.2.1 q.2.2 col (q.2.2 - 1) col
    else (q.1, q.2.1)
  else s

/-- The body of the `down` sweep for one cell. -/
def processDown (s : Grid × List Block) (row col : Nat) : Grid × List Block :=
  if gridGet s.1 row col ≠ 0 then
    let q := slideDownLoop 3 s.1 s.2 row col
    if q.2.2 < 3 ∧ gridGet q.1 (q.2.2 + 1) col = gridGet q.1 q.2.2 col then
      mergeStep q.1 q.2.1 q.2.2 col (q.2.2 + 1) col
    else (q.1, q.2.1)
  else s

/-- The body of the `right` sweep for one cell. -/
def processRight (s : Grid × List Block) (row col : Nat) : Grid × List Block :=
  if gridGet s.1 row col ≠ 0 then
    let q := slideRightLoop 3 s.1 s.2 row col
    if q.2.2 < 3 ∧ gridGet q.1 row (q.2.2 + 1) = gridGet q.1 row q.2.2 then
      mergeStep q.1 q.2.1 row q.2.2 row (q.2.2 + 1)
    else (q.1, q.2.1)
  else s

/-- The body of the `left` sweep for one cell. -/
def processLeft (s : Grid × List Block) (row col : Nat) : Grid × List Block :=
  if gridGet s.1 row col ≠ 0 then
    let q := slideLeftLoop 3 s.1 s.2 row col
    if 0 < q.2.2 ∧ gridGet q.1 row (q.2.2 - 1) = gridGet q.1 row q.2.2 then
      mergeStep q.1 q.2.1 row q.2.2 row (q.2.2 - 1)
    else (q.1, q.2.1)
  else s

/-- `for row in range(1,4): for col in range(4): ...` (the `up` block of
`move`). -/
def sweepUp (t : Twenty) : Twenty :=
  let p := (List.range' 1 3).foldl
    (fun s row => (List.range 4).foldl (fun s col => processUp s row col) s)
    (t.playGrid, t.blocks)
  ⟨p.2, p.1⟩

/-- `for row in range(2,-1,-1): for col in range(4): ...` (the `down`
block of `move`). -/
def sweepDown (t : Twenty) : Twenty :=
  let p := ((List.range 3).reverse).foldl
    (fun s row => (List.range 4).foldl (fun s col => processDown s row col) s)
    (t.playGrid, t.blocks)
  ⟨p.2, p.1⟩

/-- `for row in range(4): for col in range(2,-1,-1): ...` (the `right`
block of `move`). -/
def sweepRight (t : Twenty) : Twenty :=
  let p := (List.range 4).foldl
    (fun s row => ((List.range 3).reverse).foldl
      (fun s col => processRight s row col) s)
    (t.playGrid, t.blocks)
  ⟨p.2, p.1⟩

/-- `for row in range(4): for col in range(1,4): ...` (the `left` block of
`move`). -/
def sweepLeft (t : Twenty) : Twenty :=
  let p := (List.range 4).foldl
    (fun s row => (List.range' 1 3).foldl
      (fun s col => processLeft s row col) s)
    (t.playGrid, t.blocks)
  ⟨p.2, p.1⟩

/-- The four sequential `if direction == ...` blocks of `Twenty.move`
(lines 71-145): the source tests all four in order; at most one fires
because the four strings are pairwise distinct.  An unrecognized
direction runs none of them. -/
def sweepOf (t : Twenty) (direction : String) : Twenty :=
  let t := if direction = "up" then sweepUp t else t
  let t := if direction = "down" then sweepDown t else t
  let t := if direction = "right" then sweepRight t else t
  if direction = "left" then sweepLeft t else t

/-- `Twenty.move(self, direction)`: deep-copy the grid, run the
directional sweep, then `if old_grid != self.playGrid: self.spawn_block()`
(a full-state comparison of the nested lists).  `vIdx`/`cIdx` are the
random draws consumed by the spawn, if it fires. -/
def move (t : Twenty) (direction : String) (vIdx cIdx : Nat) :
    Except EngineError Twenty :=
  let old_grid := t.playGrid
  let u := sweepOf t direction
  if old_grid ≠ u.playGrid then spawn_block u vIdx cIdx else .ok u

/-- `Twenty.__init__(self)`: empty registry, all-zero 4×4 grid, then two
`spawn_block` calls.  The four `Nat` arguments are the random draws of
the two spawns. -/
def newGame (v1 c1 v2 c2 : Nat) : Except EngineError Twenty :=
  let t : Twenty := ⟨[], [[0,0,0,0],[0,0,0,0],[0,0,0,0],[0,0,0,0]]⟩
  spawn_block t v1 c1 >>= fun t1 => spawn_block t1 v2 c2

end Twenty

/-! ### List and grid update lemmas -/

theorem getD_set_self {α : Type} (l : List α) (i : Nat) (v d : α)
    (h : i < l.length) : (l.set i v).getD i d = v := by
  induction l generalizing i with
  | nil => simp at h
  | cons a l ih =>
    cases i with
    | zero => rfl
    | succ i => exact ih i (by simpa using h)

theorem getD_set_ne {α : Type} (l : List α) {i j : Nat} (v d : α)
    (h : i ≠ j) : (l.set i v).getD j d = l.getD j d := by
  induction l generalizing i j with
  | nil => rfl
  | cons a l ih =>
    cases i with
    | zero =>
      cases j with
      | zero => exact absurd rfl h
      | succ j => rfl
    | succ i =>
      cases j with
      | zero => rfl
      | succ j => exact ih (fun hij => h (by omega))

theorem getD_mem {α : Type} (l : List α) {i : Nat} (d : α)
    (h : i < l.length) : l.getD i d ∈ l := by
  rw [List.getD_eq_getElem l d h]
  exact List.getElem_mem h

/-- The shape every grid the engine manipulates has: a 4×4 matrix.  The
initial grid has it and every operation preserves it. -/
def gridShape (g : Grid) : Prop := g.length = 4 ∧ ∀ row ∈ g, row.length = 4

theorem gridShape_set (g : Grid) (r c v : Nat) (h : gridShape g)
    (hr : r < 4) : gridShape (gridSet g r c v) := by
  obtain ⟨hlen, hrow⟩ := h
  refine ⟨by simpa [gridSet] using hlen, ?_⟩
  intro row hmem
  rcases List.mem_or_eq_of_mem_set hmem with hmem' | rfl
  · exact hrow row hmem'
  · rw [List.length_set]
    exact hrow _ (getD_mem g [] (by omega))

theorem rowLen (g : Grid) (r : Nat) (h : gridShape g) (hr : r < 4) :
    (g.getD r []).length = 4 := by
  obtain ⟨hlen, hrow⟩ := h
  exact hrow _ (getD_mem g [] (by omega))

theorem gridGet_set_self (g : Grid) (r c v : Nat) (h : gridShape g)
    (hr : r < 4) (hc : c < 4) : gridGet (gridSet g r c v) r c = v := by
  have hlen : g.length = 4 := h.1
  unfold gridGet gridSet
  rw [getD_set_self g r _ [] (by omega)]
  rw [getD_set_self _ c v 0 (by rw [rowLen g r h hr]; omega)]

theorem gridGet_set_ne (g : Grid) {r c : Nat} (v : Nat) {r' c' : Nat}
    (h : ¬(r' = r ∧ c' = c)) :
    gridGet (gridSet g r c v) r' c' = gridGet g r' c' := by
  unfold gridGet gridSet
  by_cases hr : r' = r
  · subst hr
    have hc : c ≠ c' := fun hcc => h ⟨rfl, hcc.symm⟩
    by_cases hlen : r' < g.length
    · rw [getD_set_self g r' _ [] hlen, getD_set_ne _ _ _ hc]
    · rw [List.set_eq_of_length_le (by omega)]
  · rw [getD_set_ne _ _ _ (fun hrr => hr hrr.symm)]

/-! ### Cell sums over the 4×4 board -/

/-- The index set of the board. -/
def cellFin : Finset (Nat × Nat) := Finset.range 4 ×ˢ Finset.range 4

theorem mem_cellFin (p : Nat × Nat) : p ∈ cellFin ↔ p.1 < 4 ∧ p.2 < 4 := by
  simp [cellFin, Finset.mem_product]

/-- Total of the grid's cell values (on 4×4-shaped grids this is the sum
of all entries). -/
def gridSum (g : Grid) : Nat := ∑ p ∈ cellFin, gridGet g p.1 p.2

/-- Number of empty cells of the board. -/
def zeros (g : Grid) : Nat :=
  ∑ p ∈ cellFin, if gridGet g p.1 p.2 = 0 then 1 else 0

/-- A cell-weighted total of the grid, used as a strictly decreasing
measure of the four sweeps. -/
def wsum (g : Grid) (w : Nat → Nat → Nat) : Nat :=
  ∑ p ∈ cellFin, w p.1 p.2 * gridGet g p.1 p.2

theorem cell_update_sum (h : Nat × Nat → Nat → Nat) (g : Grid)
    (r c v : Nat) (hs : gridShape g) (hr : r < 4) (hc : c < 4) :
    (∑ p ∈ cellFin, h p (gridGet (gridSet g r c v) p.1 p.2))
        + h (r, c) (gridGet g r c)
      = (∑ p ∈ cellFin, h p (gridGet g p.1 p.2)) + h (r, c) v := by
  have hmem : (r, c) ∈ cellFin := (mem_cellFin _).2 ⟨hr, hc⟩
  rw [← Finset.sum_erase_add _ _ hmem, ← Finset.sum_erase_add _ _ hmem]
  have heq : ∀ p ∈ cellFin.erase (r, c),
      h p (gridGet (gridSet g r c v) p.1 p.2) = h p (gridGet g p.1 p.2) := by
    intro p hp
    have hne : p ≠ (r, c) := (Finset.mem_erase.1 hp).1
    rw [gridGet_set_ne g v (fun hcc => hne (Prod.ext hcc.1 hcc.2))]
  rw [Finset.sum_congr rfl heq]
  have hred : gridGet (gridSet g r c v) (r, c).1 (r, c).2 = v :=
    gridGet_set_self g r c v hs hr hc
  have hred' : gridGet g (r, c).1 (r, c).2 = gridGet g r c := rfl
  rw [hred, hred']
  omega

theorem gridSum_set (g : Grid) (r c v : Nat) (hs : gridShape g)
    (hr : r < 4) (hc : c < 4) :
    gridSum (gridSet g r c v) + gridGet g r c = gridSum g + v :=
  cell_update_sum (fun _ x => x) g r c v hs hr hc

theorem zeros_set (g : Grid) (r c v : Nat) (hs : gridShape g)
    (hr : r < 4) (hc : c < 4) :
    zeros (gridSet g r c v) + (if gridGet g r c = 0 then 1 else 0)
      = zeros g + (if v = 0 then 1 else 0) :=
  cell_update_sum (fun _ x => if x = 0 then 1 else 0) g r c v hs hr hc

theorem wsum_set (g : Grid) (r c v : Nat) (w : Nat → Nat → Nat)
    (hs : gridShape g) (hr : r < 4) (hc : c < 4) :
    wsum (gridSet g r c v) w + w r c * gridGet g r c
      = wsum g w + w r c * v :=
  cell_update_sum (fun p x => w p.1 p.2 * x) g r c v hs hr hc

theorem zeros_pos (g : Grid) {r c : Nat} (hr : r < 4) (hc : c < 4)
    (h0 : gridGet g r c = 0) : 1 ≤ zeros g := by
  have hmem : (r, c) ∈ cellFin := (mem_cellFin _).2 ⟨hr, hc⟩
  calc (1 : Nat) = if gridGet g r c = 0 then 1 else 0 := by rw [if_pos h0]
  _ ≤ zeros g :=
      Finset.single_le_sum (f := fun p => if gridGet g p.1 p.2 = 0 then 1 else 0)
        (fun i _ => Nat.zero_le _) hmem

theorem exists_zero_of_zeros_pos (g : Grid) (h : 1 ≤ zeros g) :
    ∃ r c, r < 4 ∧ c < 4 ∧ gridGet g r c = 0 := by
  by_contra hno
  push_neg at hno
  have : zeros g = 0 := by
    refine Finset.sum_eq_zero ?_
    intro p hp
    obtain ⟨h1, h2⟩ := (mem_cellFin p).1 hp
    rw [if_neg (hno p.1 p.2 h1 h2)]
  omega

theorem mem_emptyCellsOf (g : Grid) (p : Nat × Nat) :
    p ∈ Twenty.emptyCellsOf g ↔ p.1 < 4 ∧ p.2 < 4 ∧ gridGet g p.1 p.2 = 0 := by
  obtain ⟨r, c⟩ := p
  simp only [Twenty.emptyCellsOf, List.mem_flatMap, List.mem_filterMap,
    List.mem_range]
  constructor
  · rintro ⟨row, hrow, col, hcol, hif⟩
    by_cases h0 : gridGet g row col = 0
    · rw [if_pos h0] at hif
      obtain ⟨rfl, rfl⟩ := Prod.mk.injEq .. ▸ Option.some.inj hif
      exact ⟨hrow, hcol, h0⟩
    · rw [if_neg h0] at hif
      exact absurd hif (by simp)
  · rintro ⟨hr, hc, h0⟩
    exact ⟨r, hr, c, hc, by rw [if_pos h0]⟩

theorem emptyCellsOf_ne_nil (g : Grid) {r c : Nat} (hr : r < 4) (hc : c < 4)
    (h0 : gridGet g r c = 0) : Twenty.emptyCellsOf g ≠ [] :=
  List.ne_nil_of_mem ((mem_emptyCellsOf g (r, c)).2 ⟨hr, hc, h0⟩)

/-! ### The grid / tile-registry consistency invariant -/

/-- Two blocks occupy different cells. -/
def posDistinct (a b : Block) : Prop := ¬(a.row = b.row ∧ a.col = b.col)

instance (a b : Block) : Decidable (posDistinct a b) := by
  unfold posDistinct; infer_instance

/-- Well-formedness of a grid / registry pair: the grid is 4×4; every
registered block sits in bounds on a cell carrying exactly its (non-zero)
value; no two registered blocks share a cell; and every non-zero cell is
covered by a registered block.  Together these say a cell holds a
non-zero value `v` iff exactly one registered block has that position,
and then its value is `v`. -/
def WFp (g : Grid) (bs : List Block) : Prop :=
  gridShape g ∧
  (∀ b ∈ bs, b.row < 4 ∧ b.col < 4 ∧ b.val ≠ 0 ∧ gridGet g b.row b.col = b.val) ∧
  bs.Pairwise posDistinct ∧
  (∀ r, r < 4 → ∀ c, c < 4 → gridGet g r c ≠ 0 →
    ∃ b, b ∈ bs ∧ b.row = r ∧ b.col = c)

/-- Well-formedness of a whole game state. -/
def WellFormed (t : Twenty) : Prop := WFp t.playGrid t.blocks

instance (g : Grid) (bs : List Block) : Decidable (WFp g bs) := by
  unfold WFp gridShape posDistinct; infer_instance

instance (t : Twenty) : Decidable (WellFormed t) := by
  unfold WellFormed; infer_instance

theorem pairwise_pos_inj {bs : List Block} (h : bs.Pairwise posDistinct)
    {b1 b2 : Block} (h1 : b1 ∈ bs) (h2 : b2 ∈ bs)
    (hr : b1.row = b2.row) (hc : b1.col = b2.col) : b1 = b2 := by
  induction bs with
  | nil => cases h1
  | cons a l ih =>
    rw [List.pairwise_cons] at h
    rcases List.mem_cons.1 h1 with rfl | h1'
    · rcases List.mem_cons.1 h2 with rfl | h2'
      · rfl
      · exact absurd ⟨hr, hc⟩ (h.1 b2 h2')
    · rcases List.mem_cons.1 h2 with rfl | h2'
      · exact absurd ⟨hr.symm, hc.symm⟩ (h.1 b1 h1')
      · exact ih h.2 h1' h2'

theorem map_no_match {l : List Block} {r c : Nat} {f : Block → Block}
    (h : ∀ x ∈ l, ¬(x.row = r ∧ x.col = c)) :
    l.map (fun b => if b.row = r ∧ b.col = c then f b else b) = l := by
  induction l with
  | nil => rfl
  | cons a l ih =>
    simp only [List.map_cons, if_neg (h a (List.mem_cons_self a l))]
    rw [ih (fun x hx => h x (List.mem_cons_of_mem a hx))]

/-- On a registry without duplicate positions, mutating the first block at
`(r, c)` is mutating every block at `(r, c)`. -/
theorem updateFirstAt_eq_map {bs : List Block} {r c : Nat} {f : Block → Block}
    (h : bs.Pairwise posDistinct) :
    updateFirstAt bs r c f
      = bs.map (fun b => if b.row = r ∧ b.col = c then f b else b) := by
  induction bs with
  | nil => rfl
  | cons a l ih =>
    rw [List.pairwise_cons] at h
    by_cases ha : a.row = r ∧ a.col = c
    · simp only [updateFirstAt, if_pos ha, List.map_cons]
      rw [map_no_match (fun x hx hxm => (h.1 x hx) ⟨ha.1.trans hxm.1.symm, ha.2.trans hxm.2.symm⟩)]
    · simp only [updateFirstAt, if_neg ha, List.map_cons]
      rw [ih h.2]

/-- On a registry without duplicate positions, removing the first block at
`(r, c)` is removing every block at `(r, c)`. -/
theorem removeFirstAt_eq_filter {bs : List Block} {r c : Nat}
    (h : bs.Pairwise posDistinct) :
    removeFirstAt bs r c
      = bs.filter (fun b => decide ¬(b.row = r ∧ b.col = c)) := by
  induction bs with
  | nil => rfl
  | cons a l ih =>
    rw [List.pairwise_cons] at h
    by_cases ha : a.row = r ∧ a.col = c
    · simp only [removeFirstAt, if_pos ha, List.filter_cons,
        decide_eq_true_eq, decide_not]
      rw [if_neg (by simp [ha])]
      rw [List.filter_eq_self.2 ?_]
      intro x hx
      simp only [decide_not, Bool.not_eq_true', decide_eq_false_iff_not]
      exact fun hxm => (h.1 x hx) ⟨ha.1.trans hxm.1.symm, ha.2.trans hxm.2.symm⟩
    · simp only [removeFirstAt, if_neg ha, List.filter_cons]
      rw [if_pos (by simp [ha]), ih h.2]

/-! ### Effect of one slide step and one merge step -/

theorem block_not_at_zero {g : Grid} {bs : List Block}
    (hb : ∀ b ∈ bs, b.row < 4 ∧ b.col < 4 ∧ b.val ≠ 0 ∧
      gridGet g b.row b.col = b.val)
    {b : Block} (hmem : b ∈ bs) {r c : Nat} (h0 : gridGet g r c = 0) :
    ¬(b.row = r ∧ b.col = c) := by
  rintro ⟨h1, h2⟩
  obtain ⟨_, _, hval, hgr⟩ := hb b hmem
  rw [h1, h2, h0] at hgr
  exact hval hgr.symm

/-- One iteration of a slide loop: the moved value lands on the empty
target cell, well-formedness and the grid total are preserved, the number
of empty cells is unchanged (and positive), and any cell-weighted total
changes by the weight difference of the two cells. -/
theorem slideStep_spec {g : Grid} {bs : List Block} {r c r' c' : Nat}
    (hw : WFp g bs) (hr : r < 4) (hc : c < 4) (hr' : r' < 4) (hc' : c' < 4)
    (hne : ¬(r' = r ∧ c' = c)) (hsrc : gridGet g r c ≠ 0)
    (hdst : gridGet g r' c' = 0) :
    WFp (gridSet (gridSet g r' c' (gridGet g r c)) r c 0)
        (updateFirstAt bs r c (fun b => b.move r' c')) ∧
    gridSum (gridSet (gridSet g r' c' (gridGet g r c)) r c 0) = gridSum g ∧
    zeros (gridSet (gridSet g r' c' (gridGet g r c)) r c 0) = zeros g ∧
    1 ≤ zeros g ∧
    (∀ w : Nat → Nat → Nat,
      wsum (gridSet (gridSet g r' c' (gridGet g r c)) r c 0) w + w r c * gridGet g r c
        = wsum g w + w r' c' * gridGet g r c) ∧
    gridGet (gridSet (gridSet g r' c' (gridGet g r c)) r c 0) r' c'
      = gridGet g r c := by
  obtain ⟨hs, hb, hp, hcov⟩ := hw
  have hne' : ¬(r = r' ∧ c = c') := fun h => hne ⟨h.1.symm, h.2.symm⟩
  have hg1s : gridShape (gridSet g r' c' (gridGet g r c)) :=
    gridShape_set g r' c' _ hs hr'
  have hg2s : gridShape (gridSet (gridSet g r' c' (gridGet g r c)) r c 0) :=
    gridShape_set _ r c 0 hg1s hr
  have hmid_rc : gridGet (gridSet g r' c' (gridGet g r c)) r c = gridGet g r c :=
    gridGet_set_ne g _ hne'
  have hmid_dst : gridGet (gridSet g r' c' (gridGet g r c)) r' c' = gridGet g r c :=
    gridGet_set_self g r' c' _ hs hr' hc'
  have hget_rc : gridGet (gridSet (gridSet g r' c' (gridGet g r c)) r c 0) r c = 0 :=
    gridGet_set_self _ r c 0 hg1s hr hc
  have hget_dst : gridGet (gridSet (gridSet g r' c' (gridGet g r c)) r c 0) r' c'
      = gridGet g r c := by
    rw [gridGet_set_ne _ 0 hne, hmid_dst]
  have hget_other : ∀ x y, ¬(x = r ∧ y = c) → ¬(x = r' ∧ y = c') →
      gridGet (gridSet (gridSet g r' c' (gridGet g r c)) r c 0) x y
        = gridGet g x y := by
    intro x y h1 h2
    rw [gridGet_set_ne _ 0 h1, gridGet_set_ne _ _ h2]
  refine ⟨⟨hg2s, ?_, ?_, ?_⟩, ?_, ?_, zeros_pos g hr' hc' hdst, ?_, hget_dst⟩
  · -- every block still matches the grid
    intro b' hb'
    rw [updateFirstAt_eq_map hp] at hb'
    obtain ⟨b, hbmem, rfl⟩ := List.mem_map.1 hb'
    obtain ⟨hbr, hbc, hbval, hbg⟩ := hb b hbmem
    by_cases hm : b.row = r ∧ b.col = c
    · rw [if_pos hm]
      refine ⟨by simpa [Block.move] using hr', by simpa [Block.move] using hc',
        by simpa [Block.move] using hbval, ?_⟩
      show gridGet _ r' c' = b.val
      rw [hget_dst]
      rw [hm.1, hm.2] at hbg
      exact hbg
    · rw [if_neg hm]
      have hnotdst : ¬(b.row = r' ∧ b.col = c') := block_not_at_zero hb hbmem hdst
      exact ⟨hbr, hbc, hbval, by rw [hget_other b.row b.col hm hnotdst]; exact hbg⟩
  · -- no two blocks share a cell
    rw [updateFirstAt_eq_map hp, List.pairwise_map]
    refine List.Pairwise.imp_of_mem ?_ hp
    intro a b ha hbm hab
    by_cases hma : a.row = r ∧ a.col = c <;> by_cases hmb : b.row = r ∧ b.col = c
    · exact absurd ⟨hma.1.trans hmb.1.symm, hma.2.trans hmb.2.symm⟩ hab
    · rw [if_pos hma, if_neg hmb]
      rintro ⟨h1, h2⟩
      exact block_not_at_zero hb hbm hdst
        ⟨(by simpa [Block.move] using h1 : r' = b.row).symm,
         (by simpa [Block.move] using h2 : c' = b.col).symm⟩
    · rw [if_neg hma, if_pos hmb]
      rintro ⟨h1, h2⟩
      exact block_not_at_zero hb ha hdst
        ⟨(by simpa [Block.move] using h1 : a.row = r'),
         (by simpa [Block.move] using h2 : a.col = c')⟩
    · rw [if_neg hma, if_neg hmb]
      exact hab
  · -- every non-zero cell is covered
    intro x hx y hy hnz
    by_cases hx1 : x = r ∧ y = c
    · obtain ⟨rfl, rfl⟩ := hx1
      exact absurd hget_rc hnz
    · by_cases hx2 : x = r' ∧ y = c'
      · obtain ⟨hxe, hye⟩ := hx2
        obtain ⟨b0, hb0, hb0r, hb0c⟩ := hcov r hr c hc hsrc
        refine ⟨b0.move r' c', ?_, by simp [Block.move, hxe],
          by simp [Block.move, hye]⟩
        rw [updateFirstAt_eq_map hp]
        exact List.mem_map.2 ⟨b0, hb0, by rw [if_pos ⟨hb0r, hb0c⟩]⟩
      · rw [hget_other x y hx1 hx2] at hnz
        obtain ⟨b1, hb1, hb1r, hb1c⟩ := hcov x hx y hy hnz
        refine ⟨b1, ?_, hb1r, hb1c⟩
        rw [updateFirstAt_eq_map hp]
        refine List.mem_map.2 ⟨b1, hb1, ?_⟩
        rw [if_neg (fun hm => hx1 ⟨hb1r.symm.trans hm.1, hb1c.symm.trans hm.2⟩)]
  · -- grid total preserved
    have hsum1 := gridSum_set g r' c' (gridGet g r c) hs hr' hc'
    have hsum2 := gridSum_set (gridSet g r' c' (gridGet g r c)) r c 0 hg1s hr hc
    rw [hdst] at hsum1
    rw [hmid_rc] at hsum2
    omega
  · -- empty-cell count preserved
    have hz1 := zeros_set g r' c' (gridGet g r c) hs hr' hc'
    have hz2 := zeros_set (gridSet g r' c' (gridGet g r c)) r c 0 hg1s hr hc
    rw [if_pos hdst, if_neg hsrc] at hz1
    rw [hmid_rc, if_neg hsrc, if_pos rfl] at hz2
    omega
  · -- weighted total
    intro w
    have hw1 := wsum_set g r' c' (gridGet g r c) w hs hr' hc'
    have hw2 := wsum_set (gridSet g r' c' (gridGet g r c)) r c 0 w hg1s hr hc
    rw [hdst, Nat.mul_zero] at hw1
    rw [hmid_rc, Nat.mul_zero] at hw2
    omega

/-- One merge: the target cell doubles, the source cell empties, the
source block disappears.  Well-formedness and the grid total are
preserved, the number of empty cells grows by one, and any cell-weighted
total changes by the weight difference of the two cells. -/
theorem mergeStep_spec {g : Grid} {bs : List Block} {r c r' c' : Nat}
    (hw : WFp g bs) (hr : r < 4) (hc : c < 4) (hr' : r' < 4) (hc' : c' < 4)
    (hne : ¬(r' = r ∧ c' = c)) (hsrc : gridGet g r c ≠ 0)
    (heq : gridGet g r' c' = gridGet g r c) :
    WFp (gridSet (gridSet g r' c' (gridGet g r' c' * 2)) r c 0)
        (removeFirstAt (updateFirstAt bs r' c' Block.double) r c) ∧
    gridSum (gridSet (gridSet g r' c' (gridGet g r' c' * 2)) r c 0) = gridSum g ∧
    zeros (gridSet (gridSet g r' c' (gridGet g r' c' * 2)) r c 0) = zeros g + 1 ∧
    (∀ w : Nat → Nat → Nat,
      wsum (gridSet (gridSet g r' c' (gridGet g r' c' * 2)) r c 0) w
          + w r c * gridGet g r c
        = wsum g w + w r' c' * gridGet g r c) := by
  obtain ⟨hs, hb, hp, hcov⟩ := hw
  have hne' : ¬(r = r' ∧ c = c') := fun h => hne ⟨h.1.symm, h.2.symm⟩
  have hdstnz : gridGet g r' c' ≠ 0 := by rw [heq]; exact hsrc
  have hg1s : gridShape (gridSet g r' c' (gridGet g r' c' * 2)) :=
    gridShape_set g r' c' _ hs hr'
  have hg2s : gridShape (gridSet (gridSet g r' c' (gridGet g r' c' * 2)) r c 0) :=
    gridShape_set _ r c 0 hg1s hr
  have hmid_rc : gridGet (gridSet g r' c' (gridGet g r' c' * 2)) r c = gridGet g r c :=
    gridGet_set_ne g _ hne'
  have hget_rc :
      gridGet (gridSet (gridSet g r' c' (gridGet g r' c' * 2)) r c 0) r c = 0 :=
    gridGet_set_self _ r c 0 hg1s hr hc
  have hget_dst :
      gridGet (gridSet (gridSet g r' c' (gridGet g r' c' * 2)) r c 0) r' c'
        = gridGet g r' c' * 2 := by
    rw [gridGet_set_ne _ 0 hne]
    exact gridGet_set_self g r' c' _ hs hr' hc'
  have hget_other : ∀ x y, ¬(x = r ∧ y = c) → ¬(x = r' ∧ y = c') →
      gridGet (gridSet (gridSet g r' c' (gridGet g r' c' * 2)) r c 0) x y
        = gridGet g x y := by
    intro x y h1 h2
    rw [gridGet_set_ne _ 0 h1, gridGet_set_ne _ _ h2]
  have hmapd : updateFirstAt bs r' c' Block.double
      = bs.map (fun b => if b.row = r' ∧ b.col = c' then b.double else b) :=
    updateFirstAt_eq_map hp
  have hFd_pos : ∀ b : Block,
      (if b.row = r' ∧ b.col = c' then b.double else b).row = b.row ∧
      (if b.row = r' ∧ b.col = c' then b.double else b).col = b.col := by
    intro b
    by_cases hm : b.row = r' ∧ b.col = c' <;> simp [hm, Block.double]
  have hp1 : (bs.map
      (fun b => if b.row = r' ∧ b.col = c' then b.double else b)).Pairwise
      posDistinct := by
    rw [List.pairwise_map]
    refine List.Pairwise.imp_of_mem ?_ hp
    intro a b _ _ hab hcontra
    exact hab ⟨((hFd_pos a).1.symm.trans hcontra.1).trans (hFd_pos b).1,
      ((hFd_pos a).2.symm.trans hcontra.2).trans (hFd_pos b).2⟩
  have hrem : removeFirstAt (updateFirstAt bs r' c' Block.double) r c
      = (bs.map (fun b => if b.row = r' ∧ b.col = c' then b.double else b)).filter
          (fun b => decide ¬(b.row = r ∧ b.col = c)) := by
    rw [hmapd]
    exact removeFirstAt_eq_filter hp1
  refine ⟨⟨hg2s, ?_, ?_, ?_⟩, ?_, ?_, ?_⟩
  · -- every surviving block still matches the grid
    intro b'' hb''
    rw [hrem] at hb''
    obtain ⟨hmm, hpred⟩ := List.mem_filter.1 hb''
    rw [decide_eq_true_eq] at hpred
    obtain ⟨b, hbmem, rfl⟩ := List.mem_map.1 hmm
    obtain ⟨hbr, hbc, hbval, hbg⟩ := hb b hbmem
    by_cases hm : b.row = r' ∧ b.col = c'
    · rw [if_pos hm] at hpred ⊢
      refine ⟨by simpa [Block.double] using hbr, by simpa [Block.double] using hbc,
        by simp [Block.double, hbval], ?_⟩
      show gridGet _ b.row b.col = b.val * 2
      rw [hm.1, hm.2, hget_dst]
      rw [hm.1, hm.2] at hbg
      rw [hbg]
    · rw [if_neg hm] at hpred ⊢
      exact ⟨hbr, hbc, hbval, by rw [hget_other b.row b.col hpred hm]; exact hbg⟩
  · -- no two surviving blocks share a cell
    rw [hrem]
    exact hp1.sublist (List.filter_sublist _)
  · -- every non-zero cell is covered
    intro x hx y hy hnz
    by_cases hx1 : x = r ∧ y = c
    · obtain ⟨rfl, rfl⟩ := hx1
      exact absurd hget_rc hnz
    · by_cases hx2 : x = r' ∧ y = c'
      · obtain ⟨hxe, hye⟩ := hx2
        obtain ⟨b0, hb0, hb0r, hb0c⟩ := hcov r' hr' c' hc' hdstnz
        refine ⟨b0.double, ?_, by simp [Block.double, hb0r, hxe],
          by simp [Block.double, hb0c, hye]⟩
        rw [hrem]
        refine List.mem_filter.2 ⟨List.mem_map.2 ⟨b0, hb0, by rw [if_pos ⟨hb0r, hb0c⟩]⟩, ?_⟩
        rw [decide_eq_true_eq]
        simp only [Block.double]
        rw [hb0r, hb0c]
        intro hmm2
        exact hne hmm2
      · rw [hget_other x y hx1 hx2] at hnz
        obtain ⟨b1, hb1, hb1r, hb1c⟩ := hcov x hx y hy hnz
        refine ⟨b1, ?_, hb1r, hb1c⟩
        rw [hrem]
        refine List.mem_filter.2 ⟨List.mem_map.2 ⟨b1, hb1, ?_⟩, ?_⟩
        · rw [if_neg (fun hm => hx2 ⟨hb1r.symm.trans hm.1, hb1c.symm.trans hm.2⟩)]
        · rw [decide_eq_true_eq]
          exact fun hm => hx1 ⟨hb1r.symm.trans hm.1, hb1c.symm.trans hm.2⟩
  · -- grid total preserved
    have hsum1 := gridSum_set g r' c' (gridGet g r' c' * 2) hs hr' hc'
    have hsum2 := gridSum_set (gridSet g r' c' (gridGet g r' c' * 2)) r c 0 hg1s hr hc
    rw [hmid_rc] at hsum2
    omega
  · -- empty-cell count grows by one
    have h2nz : gridGet g r' c' * 2 ≠ 0 := by
      intro h
      exact hdstnz (by omega)
    have hz1 := zeros_set g r' c' (gridGet g r' c' * 2) hs hr' hc'
    have hz2 := zeros_set (gridSet g r' c' (gridGet g r' c' * 2)) r c 0 hg1s hr hc
    rw [if_neg hdstnz, if_neg h2nz] at hz1
    rw [hmid_rc, if_neg hsrc, if_pos rfl] at hz2
    omega
  · -- weighted total
    intro w
    have hw1 := wsum_set g r' c' (gridGet g r' c' * 2) w hs hr' hc'
    have hw2 := wsum_set (gridSet g r' c' (gridGet g r' c' * 2)) r c 0 w hg1s hr hc
    have hD : w r' c' * gridGet g r' c' = w r' c' * gridGet g r c := by rw [heq]
    have hD2 : w r' c' * (gridGet g r' c' * 2) = w r' c' * gridGet g r c * 2 := by
      rw [heq]
      exact (Nat.mul_assoc _ _ _).symm
    rw [hD, hD2] at hw1
    rw [hmid_rc, Nat.mul_zero] at hw2
    omega

/-! ### The sweep invariant -/

/-- Cell weight that strictly drops on every `up` slide or merge. -/
def wUp : Nat → Nat → Nat := fun r _ => r

/-- Cell weight that strictly drops on every `down` slide or merge. -/
def wDown : Nat → Nat → Nat := fun r _ => 3 - r

/-- Cell weight that strictly drops on every `left` slide or merge. -/
def wLeft : Nat → Nat → Nat := fun _ c => c

/-- Cell weight that strictly drops on every `right` slide or merge. -/
def wRight : Nat → Nat → Nat := fun _ c => 3 - c

/-- The invariant each sweep step preserves, relative to a weight `w` that
strictly decreases on every slide and merge of its direction: starting
from a well-formed pair, the result is well-formed with the same grid
total, and either nothing happened at all or the number of empty cells
did not shrink, is positive, and the weighted total strictly dropped. -/
def StepRel (w : Nat → Nat → Nat) (s t : Grid × List Block) : Prop :=
  WFp s.1 s.2 →
    WFp t.1 t.2 ∧ gridSum t.1 = gridSum s.1 ∧
    (t = s ∨ (zeros s.1 ≤ zeros t.1 ∧ 1 ≤ zeros t.1 ∧
      wsum t.1 w < wsum s.1 w))

theorem StepRel.refl (w : Nat → Nat → Nat) (s : Grid × List Block) :
    StepRel w s s := fun hw => ⟨hw, rfl, Or.inl rfl⟩

theorem StepRel.trans {w : Nat → Nat → Nat} {s t u : Grid × List Block}
    (h1 : StepRel w s t) (h2 : StepRel w t u) : StepRel w s u := by
  intro hw
  obtain ⟨hw1, hsum1, hd1⟩ := h1 hw
  obtain ⟨hw2, hsum2, hd2⟩ := h2 hw1
  refine ⟨hw2, hsum2.trans hsum1, ?_⟩
  rcases hd1 with rfl | ⟨hz1, hz1', hws1⟩
  · exact hd2
  · rcases hd2 with rfl | ⟨hz2, hz2', hws2⟩
    · exact Or.inr ⟨hz1, hz1', hws1⟩
    · exact Or.inr ⟨hz1.trans hz2, hz2', hws2.trans hws1⟩

theorem foldl_stepRel {β : Type} (w : Nat → Nat → Nat)
    (f : (Grid × List Block) → β → (Grid × List Block)) (l : List β) :
    (∀ s a, a ∈ l → StepRel w s (f s a)) →
    ∀ s, StepRel w s (l.foldl f s) := by
  induction l with
  | nil => exact fun _ s => StepRel.refl w s
  | cons a l ih =>
    intro h s
    exact StepRel.trans (h s a (List.mem_cons_self a l))
      (ih (fun s b hb => h s b (List.mem_cons_of_mem a hb)) (f s a))

/-! ### The four slide loops -/

theorem slideUpLoop_spec : ∀ (fuel : Nat) (g : Grid) (bs : List Block) (r c : Nat),
    r ≤ fuel → WFp g bs → r < 4 → c < 4 → gridGet g r c ≠ 0 →
    WFp (Twenty.slideUpLoop fuel g bs r c).1 (Twenty.slideUpLoop fuel g bs r c).2.1 ∧
    (Twenty.slideUpLoop fuel g bs r c).2.2 ≤ r ∧
    gridGet (Twenty.slideUpLoop fuel g bs r c).1 (Twenty.slideUpLoop fuel g bs r c).2.2 c
      = gridGet g r c ∧
    gridSum (Twenty.slideUpLoop fuel g bs r c).1 = gridSum g ∧
    ((Twenty.slideUpLoop fuel g bs r c).1 = g ∧
        (Twenty.slideUpLoop fuel g bs r c).2.1 = bs ∧
        (Twenty.slideUpLoop fuel g bs r c).2.2 = r ∨
      zeros g ≤ zeros (Twenty.slideUpLoop fuel g bs r c).1 ∧
        1 ≤ zeros (Twenty.slideUpLoop fuel g bs r c).1 ∧
        wsum (Twenty.slideUpLoop fuel g bs r c).1 wUp < wsum g wUp) := by
  intro fuel
  induction fuel with
  | zero =>
    intro g bs r c hle hw hr hc hnz
    exact ⟨hw, Nat.le_refl r, rfl, rfl, Or.inl ⟨rfl, rfl, rfl⟩⟩
  | succ fuel ih =>
    intro g bs r c hle hw hr hc hnz
    by_cases hcond : 0 < r ∧ gridGet g (r - 1) c = 0
    · have hstep := slideStep_spec hw hr hc
        (show r - 1 < 4 by omega) hc
        (fun h => absurd h.1 (by omega)) hnz hcond.2
      obtain ⟨hw1, hsm1, hz1, hzg, hws1, hval1⟩ := hstep
      have ihr := ih (gridSet (gridSet g (r - 1) c (gridGet g r c)) r c 0)
        (updateFirstAt bs r c (fun b => b.move (r - 1) c))
        (r - 1) c (by omega) hw1 (by omega) hc (by rw [hval1]; exact hnz)
      have hunfold : Twenty.slideUpLoop (fuel + 1) g bs r c
          = Twenty.slideUpLoop fuel
              (gridSet (gridSet g (r - 1) c (gridGet g r c)) r c 0)
              (updateFirstAt bs r c (fun b => b.move (r - 1) c)) (r - 1) c := by
        simp only [Twenty.slideUpLoop, if_pos hcond, Twenty.slideStep]
      rw [hunfold]
      obtain ⟨ihw, ihle, ihval, ihsum, ihdisj⟩ := ihr
      refine ⟨ihw, by omega, by rw [ihval, hval1], by rw [ihsum, hsm1], Or.inr ?_⟩
      have hstrict : wsum (gridSet (gridSet g (r - 1) c (gridGet g r c)) r c 0) wUp
          < wsum g wUp := by
        have hws := hws1 wUp
        simp only [wUp] at hws
        have hmul : (r - 1) * gridGet g r c < r * gridGet g r c :=
          (Nat.mul_lt_mul_right (Nat.pos_of_ne_zero hnz)).2 (by omega)
        omega
      rcases ihdisj with ⟨ihg, _, _⟩ | ⟨ihz1, ihz2, ihws⟩
      · rw [ihg]
        exact ⟨by omega, by omega, hstrict⟩
      · exact ⟨by omega, ihz2, Nat.lt_trans ihws hstrict⟩
    · have hunfold : Twenty.slideUpLoop (fuel + 1) g bs r c = (g, bs, r) := by
        simp only [Twenty.slideUpLoop, if_neg hcond]
      rw [hunfold]
      exact ⟨hw, Nat.le_refl r, rfl, rfl, Or.inl ⟨rfl, rfl, rfl⟩⟩

theorem slideDownLoop_spec : ∀ (fuel : Nat) (g : Grid) (bs : List Block) (r c : Nat),
    3 ≤ fuel + r → WFp g bs → r < 4 → c < 4 → gridGet g r c ≠ 0 →
    WFp (Twenty.slideDownLoop fuel g bs r c).1 (Twenty.slideDownLoop fuel g bs r c).2.1 ∧
    (Twenty.slideDownLoop fuel g bs r c).2.2 < 4 ∧
    gridGet (Twenty.slideDownLoop fuel g bs r c).1 (Twenty.slideDownLoop fuel g bs r c).2.2 c
      = gridGet g r c ∧
    gridSum (Twenty.slideDownLoop fuel g bs r c).1 = gridSum g ∧
    ((Twenty.slideDownLoop fuel g bs r c).1 = g ∧
        (Twenty.slideDownLoop fuel g bs r c).2.1 = bs ∧
        (Twenty.slideDownLoop fuel g bs r c).2.2 = r ∨
      zeros g ≤ zeros (Twenty.slideDownLoop fuel g bs r c).1 ∧
        1 ≤ zeros (Twenty.slideDownLoop fuel g bs r c).1 ∧
        wsum (Twenty.slideDownLoop fuel g bs r c).1 wDown < wsum g wDown) := by
  intro fuel
  induction fuel with
  | zero =>
    intro g bs r c hle hw hr hc hnz
    exact ⟨hw, hr, rfl, rfl, Or.inl ⟨rfl, rfl, rfl⟩⟩
  | succ fuel ih =>
    intro g bs r c hle hw hr hc hnz
    by_cases hcond : r < 3 ∧ gridGet g (r + 1) c = 0
    · have hstep := slideStep_spec hw hr hc
        (show r + 1 < 4 by omega) hc
        (fun h => absurd h.1 (by omega)) hnz hcond.2
      obtain ⟨hw1, hsm1, hz1, hzg, hws1, hval1⟩ := hstep
      have ihr := ih (gridSet (gridSet g (r + 1) c (gridGet g r c)) r c 0)
        (updateFirstAt bs r c (fun b => b.move (r + 1) c))
        (r + 1) c (by omega) hw1 (by omega) hc (by rw [hval1]; exact hnz)
      have hunfold : Twenty.slideDownLoop (fuel + 1) g bs r c
          = Twenty.slideDownLoop fuel
              (gridSet (gridSet g (r + 1) c (gridGet g r c)) r c 0)
              (updateFirstAt bs r c (fun b => b.move (r + 1) c)) (r + 1) c := by
        simp only [Twenty.slideDownLoop, if_pos hcond, Twenty.slideStep]
      rw [hunfold]
      obtain ⟨ihw, ihle, ihval, ihsum, ihdisj⟩ := ihr
      refine ⟨ihw, ihle, by rw [ihval, hval1], by rw [ihsum, hsm1], Or.inr ?_⟩
      have hstrict : wsum (gridSet (gridSet g (r + 1) c (gridGet g r c)) r c 0) wDown
          < wsum g wDown := by
        have hws := hws1 wDown
        simp only [wDown] at hws
        have hmul : (3 - (r + 1)) * gridGet g r c < (3 - r) * gridGet g r c :=
          (Nat.mul_lt_mul_right (Nat.pos_of_ne_zero hnz)).2 (by omega)
        omega
      rcases ihdisj with ⟨ihg, _, _⟩ | ⟨ihz1, ihz2, ihws⟩
      · rw [ihg]
        exact ⟨by omega, by omega, hstrict⟩
      · exact ⟨by omega, ihz2, Nat.lt_trans ihws hstrict⟩
    · have hunfold : Twenty.slideDownLoop (fuel + 1) g bs r c = (g, bs, r) := by
        simp only [Twenty.slideDownLoop, if_neg hcond]
      rw [hunfold]
      exact ⟨hw, hr, rfl, rfl, Or.inl ⟨rfl, rfl, rfl⟩⟩

theorem slideRightLoop_spec : ∀ (fuel : Nat) (g : Grid) (bs : List Block) (r c : Nat),
    3 ≤ fuel + c → WFp g bs → r < 4 → c < 4 → gridGet g r c ≠ 0 →
    WFp (Twenty.slideRightLoop fuel g bs r c).1 (Twenty.slideRightLoop fuel g bs r c).2.1 ∧
    (Twenty.slideRightLoop fuel g bs r c).2.2 < 4 ∧
    gridGet (Twenty.slideRightLoop fuel g bs r c).1 r (Twenty.slideRightLoop fuel g bs r c).2.2
      = gridGet g r c ∧
    gridSum (Twenty.slideRightLoop fuel g bs r c).1 = gridSum g ∧
    ((Twenty.slideRightLoop fuel g bs r c).1 = g ∧
        (Twenty.slideRightLoop fuel g bs r c).2.1 = bs ∧
        (Twenty.slideRightLoop fuel g bs r c).2.2 = c ∨
      zeros g ≤ zeros (Twenty.slideRightLoop fuel g bs r c).1 ∧
        1 ≤ zeros (Twenty.slideRightLoop fuel g bs r c).1 ∧
        wsum (Twenty.slideRightLoop fuel g bs r c).1 wRight < wsum g wRight) := by
  intro fuel
  induction fuel with
  | zero =>
    intro g bs r c hle hw hr hc hnz
    exact ⟨hw, hc, rfl, rfl, Or.inl ⟨rfl, rfl, rfl⟩⟩
  | succ fuel ih =>
    intro g bs r c hle hw hr hc hnz
    by_cases hcond : c < 3 ∧ gridGet g r (c + 1) = 0
    · have hstep := slideStep_spec hw hr hc hr
        (show c + 1 < 4 by omega)
        (fun h => absurd h.2 (by omega)) hnz hcond.2
      obtain ⟨hw1, hsm1, hz1, hzg, hws1, hval1⟩ := hstep
      have ihr := ih (gridSet (gridSet g r (c + 1) (gridGet g r c)) r c 0)
        (updateFirstAt bs r c (fun b => b.move r (c + 1)))
        r (c + 1) (by omega) hw1 hr (by omega) (by rw [hval1]; exact hnz)
      have hunfold : Twenty.slideRightLoop (fuel + 1) g bs r c
          = Twenty.slideRightLoop fuel
              (gridSet (gridSet g r (c + 1) (gridGet g r c)) r c 0)
              (updateFirstAt bs r c (fun b => b.move r (c + 1))) r (c + 1) := by
        simp only [Twenty.slideRightLoop, if_pos hcond, Twenty.slideStep]
      rw [hunfold]
      obtain ⟨ihw, ihle, ihval, ihsum, ihdisj⟩ := ihr
      refine ⟨ihw, ihle, by rw [ihval, hval1], by rw [ihsum, hsm1], Or.inr ?_⟩
      have hstrict : wsum (gridSet (gridSet g r (c + 1) (gridGet g r c)) r c 0) wRight
          < wsum g wRight := by
        have hws := hws1 wRight
        simp only [wRight] at hws
        have hmul : (3 - (c + 1)) * gridGet g r c < (3 - c) * gridGet g r c :=
          (Nat.mul_lt_mul_right (Nat.pos_of_ne_zero hnz)).2 (by omega)
        omega
      rcases ihdisj with ⟨ihg, _, _⟩ | ⟨ihz1, ihz2, ihws⟩
      · rw [ihg]
        exact ⟨by omega, by omega, hstrict⟩
      · exact ⟨by omega, ihz2, Nat.lt_trans ihws hstrict⟩
    · have hunfold : Twenty.slideRightLoop (fuel + 1) g bs r c = (g, bs, c) := by
        simp only [Twenty.slideRightLoop, if_neg hcond]
      rw [hunfold]
      exact ⟨hw, hc, rfl, rfl, Or.inl ⟨rfl, rfl, rfl⟩⟩

theorem slideLeftLoop_spec : ∀ (fuel : Nat) (g : Grid) (bs : List Block) (r c : Nat),
    c ≤ fuel → WFp g bs → r < 4 → c < 4 → gridGet g r c ≠ 0 →
    WFp (Twenty.slideLeftLoop fuel g bs r c).1 (Twenty.slideLeftLoop fuel g bs r c).2.1 ∧
    (Twenty.slideLeftLoop fuel g bs r c).2.2 ≤ c ∧
    gridGet (Twenty.slideLeftLoop fuel g bs r c).1 r (Twenty.slideLeftLoop fuel g bs r c).2.2
      = gridGet g r c ∧
    gridSum (Twenty.slideLeftLoop fuel g bs r c).1 = gridSum g ∧
    ((Twenty.slideLeftLoop fuel g bs r c).1 = g ∧
        (Twenty.slideLeftLoop fuel g bs r c).2.1 = bs ∧
        (Twenty.slideLeftLoop fuel g bs r c).2.2 = c ∨
      zeros g ≤ zeros (Twenty.slideLeftLoop fuel g bs r c).1 ∧
        1 ≤ zeros (Twenty.slideLeftLoop fuel g bs r c).1 ∧
        wsum (Twenty.slideLeftLoop fuel g bs r c).1 wLeft < wsum g wLeft) := by
  intro fuel
  induction fuel with
  | zero =>
    intro g bs r c hle hw hr hc hnz
    exact ⟨hw, Nat.le_refl c, rfl, rfl, Or.inl ⟨rfl, rfl, rfl⟩⟩
  | succ fuel ih =>
    intro g bs r c hle hw hr hc hnz
    by_cases hcond : 0 < c ∧ gridGet g r (c - 1) = 0
    · have hstep := slideStep_spec hw hr hc hr
        (show c - 1 < 4 by omega)
        (fun h => absurd h.2 (by omega)) hnz hcond.2
      obtain ⟨hw1, hsm1, hz1, hzg, hws1, hval1⟩ := hstep
      have ihr := ih (gridSet (gridSet g r (c - 1) (gridGet g r c)) r c 0)
        (updateFirstAt bs r c (fun b => b.move r (c - 1)))
        r (c - 1) (by omega) hw1 hr (by omega) (by rw [hval1]; exact hnz)
      have hunfold : Twenty.slideLeftLoop (fuel + 1) g bs r c
          = Twenty.slideLeftLoop fuel
              (gridSet (gridSet g r (c - 1) (gridGet g r c)) r c 0)
              (updateFirstAt bs r c (fun b => b.move r (c - 1))) r (c - 1) := by
        simp only [Twenty.slideLeftLoop, if_pos hcond, Twenty.slideStep]
      rw [hunfold]
      obtain ⟨ihw, ihle, ihval, ihsum, ihdisj⟩ := ihr
      refine ⟨ihw, by omega, by rw [ihval, hval1], by rw [ihsum, hsm1], Or.inr ?_⟩
      have hstrict : wsum (gridSet (gridSet g r (c - 1) (gridGet g r c)) r c 0) wLeft
          < wsum g wLeft := by
        have hws := hws1 wLeft
        simp only [wLeft] at hws
        have hmul : (c - 1) * gridGet g r c < c * gridGet g r c :=
          (Nat.mul_lt_mul_right (Nat.pos_of_ne_zero hnz)).2 (by omega)
        omega
      rcases ihdisj with ⟨ihg, _, _⟩ | ⟨ihz1, ihz2, ihws⟩
      · rw [ihg]
        exact ⟨by omega, by omega, hstrict⟩
      · exact ⟨by omega, ihz2, Nat.lt_trans ihws hstrict⟩
    · have hunfold : Twenty.slideLeftLoop (fuel + 1) g bs r c = (g, bs, c) := by
        simp only [Twenty.slideLeftLoop, if_neg hcond]
      rw [hunfold]
      exact ⟨hw, Nat.le_refl c, rfl, rfl, Or.inl ⟨rfl, rfl, rfl⟩⟩

/-! ### The per-cell sweep bodies preserve the invariant -/

theorem processUp_rel (s : Grid × List Block) (row col : Nat)
    (hrow : row < 4) (hcol : col < 4) :
    StepRel wUp s (Twenty.processUp s row col) := by
  intro hw
  by_cases h0 : gridGet s.1 row col ≠ 0
  · have hspec := slideUpLoop_spec 3 s.1 s.2 row col (by omega) hw hrow hcol h0
    obtain ⟨q, hq⟩ : ∃ q, Twenty.slideUpLoop 3 s.1 s.2 row col = q := ⟨_, rfl⟩
    rw [hq] at hspec
    obtain ⟨lw, lle, lval, lsum, ldisj⟩ := hspec
    by_cases hm : 0 < q.2.2 ∧ gridGet q.1 (q.2.2 - 1) col = gridGet q.1 q.2.2 col
    · have hpu : Twenty.processUp s row col
          = Twenty.mergeStep q.1 q.2.1 q.2.2 col (q.2.2 - 1) col := by
        unfold Twenty.processUp
        rw [if_pos h0, hq]
        exact if_pos hm
      have hsrc : gridGet q.1 q.2.2 col ≠ 0 := by
        rw [lval]; exact h0
      obtain ⟨mw, msum, mz, mws⟩ := mergeStep_spec lw (by omega) hcol
        (by omega) hcol (fun h => absurd h.1 (by omega)) hsrc hm.2
      rw [hpu]
      simp only [Twenty.mergeStep]
      refine ⟨mw, msum.trans lsum, Or.inr ?_⟩
      have hstrict : wsum (gridSet (gridSet q.1 (q.2.2 - 1) col
            (gridGet q.1 (q.2.2 - 1) col * 2)) q.2.2 col 0) wUp
          < wsum q.1 wUp := by
        have hws := mws wUp
        simp only [wUp] at hws
        have hmul : (q.2.2 - 1) * gridGet q.1 q.2.2 col
            < q.2.2 * gridGet q.1 q.2.2 col :=
          (Nat.mul_lt_mul_right (Nat.pos_of_ne_zero hsrc)).2 (by omega)
        omega
      rcases ldisj with ⟨lg, _, _⟩ | ⟨lz1, lz2, lws⟩
      · have hz : zeros q.1 = zeros s.1 := by rw [lg]
        have hwsm : wsum q.1 wUp = wsum s.1 wUp := by rw [lg]
        exact ⟨by omega, by omega, by omega⟩
      · exact ⟨by omega, by omega, Nat.lt_trans hstrict lws⟩
    · have hpu : Twenty.processUp s row col = (q.1, q.2.1) := by
        unfold Twenty.processUp
        rw [if_pos h0, hq]
        exact if_neg hm
      rw [hpu]
      refine ⟨lw, lsum, ?_⟩
      rcases ldisj with ⟨lg, lbs, _⟩ | ⟨lz1, lz2, lws⟩
      · exact Or.inl (Prod.ext lg lbs)
      · exact Or.inr ⟨lz1, lz2, lws⟩
  · have hpu : Twenty.processUp s row col = s := by
      unfold Twenty.processUp
      rw [if_neg h0]
    rw [hpu]
    exact StepRel.refl wUp s hw

theorem processDown_rel (s : Grid × List Block) (row col : Nat)
    (hrow : row < 4) (hcol : col < 4) :
    StepRel wDown s (Twenty.processDown s row col) := by
  intro hw
  by_cases h0 : gridGet s.1 row col ≠ 0
  · have hspec := slideDownLoop_spec 3 s.1 s.2 row col (by omega) hw hrow hcol h0
    obtain ⟨q, hq⟩ : ∃ q, Twenty.slideDownLoop 3 s.1 s.2 row col = q := ⟨_, rfl⟩
    rw [hq] at hspec
    obtain ⟨lw, lle, lval, lsum, ldisj⟩ := hspec
    by_cases hm : q.2.2 < 3 ∧ gridGet q.1 (q.2.2 + 1) col = gridGet q.1 q.2.2 col
    · have hpu : Twenty.processDown s row col
          = Twenty.mergeStep q.1 q.2.1 q.2.2 col (q.2.2 + 1) col := by
        unfold Twenty.processDown
        rw [if_pos h0, hq]
        exact if_pos hm
      have hsrc : gridGet q.1 q.2.2 col ≠ 0 := by
        rw [lval]; exact h0
      obtain ⟨mw, msum, mz, mws⟩ := mergeStep_spec lw lle hcol
        (by omega) hcol (fun h => absurd h.1 (by omega)) hsrc hm.2
      rw [hpu]
      simp only [Twenty.mergeStep]
      refine ⟨mw, msum.trans lsum, Or.inr ?_⟩
      have hstrict : wsum (gridSet (gridSet q.1 (q.2.2 + 1) col
            (gridGet q.1 (q.2.2 + 1) col * 2)) q.2.2 col 0) wDown
          < wsum q.1 wDown := by
        have hws := mws wDown
        simp only [wDown] at hws
        have hmul : (3 - (q.2.2 + 1)) * gridGet q.1 q.2.2 col
            < (3 - q.2.2) * gridGet q.1 q.2.2 col :=
          (Nat.mul_lt_mul_right (Nat.pos_of_ne_zero hsrc)).2 (by omega)
        omega
      rcases ldisj with ⟨lg, _, _⟩ | ⟨lz1, lz2, lws⟩
      · have hz : zeros q.1 = zeros s.1 := by rw [lg]
        have hwsm : wsum q.1 wDown = wsum s.1 wDown := by rw [lg]
        exact ⟨by omega, by omega, by omega⟩
      · exact ⟨by omega, by omega, Nat.lt_trans hstrict lws⟩
    · have hpu : Twenty.processDown s row col = (q.1, q.2.1) := by
        unfold Twenty.processDown
        rw [if_pos h0, hq]
        exact if_neg hm
      rw [hpu]
      refine ⟨lw, lsum, ?_⟩
      rcases ldisj with ⟨lg, lbs, _⟩ | ⟨lz1, lz2, lws⟩
      · exact Or.inl (Prod.ext lg lbs)
      · exact Or.inr ⟨lz1, lz2, lws⟩
  · have hpu : Twenty.processDown s row col = s := by
      unfold Twenty.processDown
      rw [if_neg h0]
    rw [hpu]
    exact StepRel.refl wDown s hw

theorem processRight_rel (s : Grid × List Block) (row col : Nat)
    (hrow : row < 4) (hcol : col < 4) :
    StepRel wRight s (Twenty.processRight s row col) := by
  intro hw
  by_cases h0 : gridGet s.1 row col ≠ 0
  · have hspec := slideRightLoop_spec 3 s.1 s.2 row col (by omega) hw hrow hcol h0
    obtain ⟨q, hq⟩ : ∃ q, Twenty.slideRightLoop 3 s.1 s.2 row col = q := ⟨_, rfl⟩
    rw [hq] at hspec
    obtain ⟨lw, lle, lval, lsum, ldisj⟩ := hspec
    by_cases hm : q.2.2 < 3 ∧ gridGet q.1 row (q.2.2 + 1) = gridGet q.1 row q.2.2
    · have hpu : Twenty.processRight s row col
          = Twenty.mergeStep q.1 q.2.1 row q.2.2 row (q.2.2 + 1) := by
        unfold Twenty.processRight
        rw [if_pos h0, hq]
        exact if_pos hm
      have hsrc : gridGet q.1 row q.2.2 ≠ 0 := by
        rw [lval]; exact h0
      obtain ⟨mw, msum, mz, mws⟩ := mergeStep_spec lw hrow lle
        hrow (by omega) (fun h => absurd h.2 (by omega)) hsrc hm.2
      rw [hpu]
      simp only [Twenty.mergeStep]
      refine ⟨mw, msum.trans lsum, Or.inr ?_⟩
      have hstrict : wsum (gridSet (gridSet q.1 row (q.2.2 + 1)
            (gridGet q.1 row (q.2.2 + 1) * 2)) row q.2.2 0) wRight
          < wsum q.1 wRight := by
        have hws := mws wRight
        simp only [wRight] at hws
        have hmul : (3 - (q.2.2 + 1)) * gridGet q.1 row q.2.2
            < (3 - q.2.2) * gridGet q.1 row q.2.2 :=
          (Nat.mul_lt_mul_right (Nat.pos_of_ne_zero hsrc)).2 (by omega)
        omega
      rcases ldisj with ⟨lg, _, _⟩ | ⟨lz1, lz2, lws⟩
      · have hz : zeros q.1 = zeros s.1 := by rw [lg]
        have hwsm : wsum q.1 wRight = wsum s.1 wRight := by rw [lg]
        exact ⟨by omega, by omega, by omega⟩
      · exact ⟨by omega, by omega, Nat.lt_trans hstrict lws⟩
    · have hpu : Twenty.processRight s row col = (q.1, q.2.1) := by
        unfold Twenty.processRight
        rw [if_pos h0, hq]
        exact if_neg hm
      rw [hpu]
      refine ⟨lw, lsum, ?_⟩
      rcases ldisj with ⟨lg, lbs, _⟩ | ⟨lz1, lz2, lws⟩
      · exact Or.inl (Prod.ext lg lbs)
      · exact Or.inr ⟨lz1, lz2, lws⟩
  · have hpu : Twenty.processRight s row col = s := by
      unfold Twenty.processRight
      rw [if_neg h0]
    rw [hpu]
    exact StepRel.refl wRight s hw

theorem processLeft_rel (s : Grid × List Block) (row col : Nat)
    (hrow : row < 4) (hcol : col < 4) :
    StepRel wLeft s (Twenty.processLeft s row col) := by
  intro hw
  by_cases h0 : gridGet s.1 row col ≠ 0
  · have hspec := slideLeftLoop_spec 3 s.1 s.2 row col (by omega) hw hrow hcol h0
    obtain ⟨q, hq⟩ : ∃ q, Twenty.slideLeftLoop 3 s.1 s.2 row col = q := ⟨_, rfl⟩
    rw [hq] at hspec
    obtain ⟨lw, lle, lval, lsum, ldisj⟩ := hspec
    by_cases hm : 0 < q.2.2 ∧ gridGet q.1 row (q.2.2 - 1) = gridGet q.1 row q.2.2
    · have hpu : Twenty.processLeft s row col
          = Twenty.mergeStep q.1 q.2.1 row q.2.2 row (q.2.2 - 1) := by
        unfold Twenty.processLeft
        rw [if_pos h0, hq]
        exact if_pos hm
      have hsrc : gridGet q.1 row q.2.2 ≠ 0 := by
        rw [lval]; exact h0
      obtain ⟨mw, msum, mz, mws⟩ := mergeStep_spec lw hrow (by omega)
        hrow (by omega) (fun h => absurd h.2 (by omega)) hsrc hm.2
      rw [hpu]
      simp only [Twenty.mergeStep]
      refine ⟨mw, msum.trans lsum, Or.inr ?_⟩
      have hstrict : wsum (gridSet (gridSet q.1 row (q.2.2 - 1)
            (gridGet q.1 row (q.2.2 - 1) * 2)) row q.2.2 0) wLeft
          < wsum q.1 wLeft := by
        have hws := mws wLeft
        simp only [wLeft] at hws
        have hmul : (q.2.2 - 1) * gridGet q.1 row q.2.2
            < q.2.2 * gridGet q.1 row q.2.2 :=
          (Nat.mul_lt_mul_right (Nat.pos_of_ne_zero hsrc)).2 (by omega)
        omega
      rcases ldisj with ⟨lg, _, _⟩ | ⟨lz1, lz2, lws⟩
      · have hz : zeros q.1 = zeros s.1 := by rw [lg]
        have hwsm : wsum q.1 wLeft = wsum s.1 wLeft := by rw [lg]
        exact ⟨by omega, by omega, by omega⟩
      · exact ⟨by omega, by omega, Nat.lt_trans hstrict lws⟩
    · have hpu : Twenty.processLeft s row col = (q.1, q.2.1) := by
        unfold Twenty.processLeft
        rw [if_pos h0, hq]
        exact if_neg hm
      rw [hpu]
      refine ⟨lw, lsum, ?_⟩
      rcases ldisj with ⟨lg, lbs, _⟩ | ⟨lz1, lz2, lws⟩
      · exact Or.inl (Prod.ext lg lbs)
      · exact Or.inr ⟨lz1, lz2, lws⟩
  · have hpu : Twenty.processLeft s row col = s := by
      unfold Twenty.processLeft
      rw [if_neg h0]
    rw [hpu]
    exact StepRel.refl wLeft s hw

/-! ### The four sweeps preserve the invariant -/

theorem sweepUp_rel (t : Twenty) :
    StepRel wUp (t.playGrid, t.blocks)
      ((Twenty.sweepUp t).playGrid, (Twenty.sweepUp t).blocks) := by
  obtain ⟨p, hp⟩ : ∃ p, (List.range' 1 3).foldl
      (fun s row => (List.range 4).foldl
        (fun s col => Twenty.processUp s row col) s)
      (t.playGrid, t.blocks) = p := ⟨_, rfl⟩
  have hrel : StepRel wUp (t.playGrid, t.blocks) p := by
    rw [← hp]
    refine foldl_stepRel wUp _ _ ?_ _
    intro s row hrowmem
    have hrow : row < 4 := by
      have := (List.mem_range'_1.1 hrowmem).2
      omega
    refine foldl_stepRel wUp _ _ ?_ s
    intro s' col hcolmem
    exact processUp_rel s' row col hrow (List.mem_range.1 hcolmem)
  have h1 : Twenty.sweepUp t = ⟨p.2, p.1⟩ := by
    unfold Twenty.sweepUp
    rw [hp]
  have h2 : (Twenty.sweepUp t).playGrid = p.1 := by rw [h1]
  have h3 : (Twenty.sweepUp t).blocks = p.2 := by rw [h1]
  rw [h2, h3, Prod.mk.eta]
  exact hrel

theorem sweepDown_rel (t : Twenty) :
    StepRel wDown (t.playGrid, t.blocks)
      ((Twenty.sweepDown t).playGrid, (Twenty.sweepDown t).blocks) := by
  obtain ⟨p, hp⟩ : ∃ p, ((List.range 3).reverse).foldl
      (fun s row => (List.range 4).foldl
        (fun s col => Twenty.processDown s row col) s)
      (t.playGrid, t.blocks) = p := ⟨_, rfl⟩
  have hrel : StepRel wDown (t.playGrid, t.blocks) p := by
    rw [← hp]
    refine foldl_stepRel wDown _ _ ?_ _
    intro s row hrowmem
    have hrow : row < 4 := by
      have := List.mem_range.1 (List.mem_reverse.1 hrowmem)
      omega
    refine foldl_stepRel wDown _ _ ?_ s
    intro s' col hcolmem
    exact processDown_rel s' row col hrow (List.mem_range.1 hcolmem)
  have h1 : Twenty.sweepDown t = ⟨p.2, p.1⟩ := by
    unfold Twenty.sweepDown
    rw [hp]
  have h2 : (Twenty.sweepDown t).playGrid = p.1 := by rw [h1]
  have h3 : (Twenty.sweepDown t).blocks = p.2 := by rw [h1]
  rw [h2, h3, Prod.mk.eta]
  exact hrel

theorem sweepRight_rel (t : Twenty) :
    StepRel wRight (t.playGrid, t.blocks)
      ((Twenty.sweepRight t).playGrid, (Twenty.sweepRight t).blocks) := by
  obtain ⟨p, hp⟩ : ∃ p, (List.range 4).foldl
      (fun s row => ((List.range 3).reverse).foldl
        (fun s col => Twenty.processRight s row col) s)
      (t.playGrid, t.blocks) = p := ⟨_, rfl⟩
  have hrel : StepRel wRight (t.playGrid, t.blocks) p := by
    rw [← hp]
    refine foldl_stepRel wRight _ _ ?_ _
    intro s row hrowmem
    have hrow : row < 4 := List.mem_range.1 hrowmem
    refine foldl_stepRel wRight _ _ ?_ s
    intro s' col hcolmem
    have hcol : col < 4 := by
      have := List.mem_range.1 (List.mem_reverse.1 hcolmem)
      omega
    exact processRight_rel s' row col hrow hcol
  have h1 : Twenty.sweepRight t = ⟨p.2, p.1⟩ := by
    unfold Twenty.sweepRight
    rw [hp]
  have h2 : (Twenty.sweepRight t).playGrid = p.1 := by rw [h1]
  have h3 : (Twenty.sweepRight t).blocks = p.2 := by rw [h1]
  rw [h2, h3, Prod.mk.eta]
  exact hrel

theorem sweepLeft_rel (t : Twenty) :
    StepRel wLeft (t.playGrid, t.blocks)
      ((Twenty.sweepLeft t).playGrid, (Twenty.sweepLeft t).blocks) := by
  obtain ⟨p, hp⟩ : ∃ p, (List.range 4).foldl
      (fun s row => (List.range' 1 3).foldl
        (fun s col => Twenty.processLeft s row col) s)
      (t.playGrid, t.blocks) = p := ⟨_, rfl⟩
  have hrel : StepRel wLeft (t.playGrid, t.blocks) p := by
    rw [← hp]
    refine foldl_stepRel wLeft _ _ ?_ _
    intro s row hrowmem
    have hrow : row < 4 := List.mem_range.1 hrowmem
    refine foldl_stepRel wLeft _ _ ?_ s
    intro s' col hcolmem
    have hcol : col < 4 := by
      have := (List.mem_range'_1.1 hcolmem).2
      omega
    exact processLeft_rel s' row col hrow hcol
  have h1 : Twenty.sweepLeft t = ⟨p.2, p.1⟩ := by
    unfold Twenty.sweepLeft
    rw [hp]
  have h2 : (Twenty.sweepLeft t).playGrid = p.1 := by rw [h1]
  have h3 : (Twenty.sweepLeft t).blocks = p.2 := by rw [h1]
  rw [h2, h3, Prod.mk.eta]
  exact hrel

theorem sweepOf_up (t : Twenty) : Twenty.sweepOf t "up" = Twenty.sweepUp t := rfl

theorem sweepOf_down (t : Twenty) :
    Twenty.sweepOf t "down" = Twenty.sweepDown t := rfl

theorem sweepOf_right (t : Twenty) :
    Twenty.sweepOf t "right" = Twenty.sweepRight t := rfl

theorem sweepOf_left (t : Twenty) :
    Twenty.sweepOf t "left" = Twenty.sweepLeft t := rfl

theorem sweepOf_invalid (t : Twenty) (d : String)
    (h1 : d ≠ "up") (h2 : d ≠ "down") (h3 : d ≠ "right") (h4 : d ≠ "left") :
    Twenty.sweepOf t d = t := by
  simp only [Twenty.sweepOf, if_neg h1, if_neg h2, if_neg h3, if_neg h4]

/-- Any sweep (any direction string) satisfies the step invariant for some
weight. -/
theorem sweepOf_rel (t : Twenty) (d : String) :
    ∃ w, StepRel w (t.playGrid, t.blocks)
      ((Twenty.sweepOf t d).playGrid, (Twenty.sweepOf t d).blocks) := by
  by_cases h1 : d = "up"
  · subst h1
    rw [sweepOf_up]
    exact ⟨wUp, sweepUp_rel t⟩
  by_cases h2 : d = "down"
  · subst h2
    rw [sweepOf_down]
    exact ⟨wDown, sweepDown_rel t⟩
  by_cases h3 : d = "right"
  · subst h3
    rw [sweepOf_right]
    exact ⟨wRight, sweepRight_rel t⟩
  by_cases h4 : d = "left"
  · subst h4
    rw [sweepOf_left]
    exact ⟨wLeft, sweepLeft_rel t⟩
  · rw [sweepOf_invalid t d h1 h2 h3 h4]
    exact ⟨wUp, StepRel.refl wUp _⟩

/-! ### Spawn, move and initialization lemmas -/

theorem twenty_ext {a b : Twenty} (h1 : a.blocks = b.blocks)
    (h2 : a.playGrid = b.playGrid) : a = b := by
  cases a
  cases b
  congr 1

theorem spawn_value (v : Nat) :
    Twenty.SPAWNABLE.getD (v % Twenty.SPAWNABLE.length) 0 = 2 ∨
    Twenty.SPAWNABLE.getD (v % Twenty.SPAWNABLE.length) 0 = 4 := by
  have hL : Twenty.SPAWNABLE.length = 2 := rfl
  rw [hL]
  have h : v % 2 < 2 := Nat.mod_lt v (by omega)
  have h2 : v % 2 = 0 ∨ v % 2 = 1 := by omega
  rcases h2 with h0 | h1
  · rw [h0]
    exact Or.inl rfl
  · rw [h1]
    exact Or.inr rfl

theorem spawn_block_error (t : Twenty) (v c : Nat)
    (h : Twenty.emptyCellsOf t.playGrid = []) :
    Twenty.spawn_block t v c = .error .indexError := by
  simp only [Twenty.spawn_block]
  rw [if_pos h]

theorem spawn_block_ok (t : Twenty) (v c : Nat)
    (h : Twenty.emptyCellsOf t.playGrid ≠ []) :
    Twenty.spawn_block t v c = .ok
      ⟨t.blocks ++ [⟨((Twenty.emptyCellsOf t.playGrid).getD
            (c % (Twenty.emptyCellsOf t.playGrid).length) (0, 0)).1,
          ((Twenty.emptyCellsOf t.playGrid).getD
            (c % (Twenty.emptyCellsOf t.playGrid).length) (0, 0)).2,
          Twenty.SPAWNABLE.getD (v % Twenty.SPAWNABLE.length) 0, 0⟩],
        gridSet t.playGrid
          ((Twenty.emptyCellsOf t.playGrid).getD
            (c % (Twenty.emptyCellsOf t.playGrid).length) (0, 0)).1
          ((Twenty.emptyCellsOf t.playGrid).getD
            (c % (Twenty.emptyCellsOf t.playGrid).length) (0, 0)).2
          (Twenty.SPAWNABLE.getD (v % Twenty.SPAWNABLE.length) 0)⟩ := by
  simp only [Twenty.spawn_block]
  rw [if_neg h]

theorem chosen_mem (g : Grid) (c : Nat) (h : Twenty.emptyCellsOf g ≠ []) :
    (Twenty.emptyCellsOf g).getD (c % (Twenty.emptyCellsOf g).length) (0, 0)
      ∈ Twenty.emptyCellsOf g := by
  have hlen : 0 < (Twenty.emptyCellsOf g).length := List.length_pos.2 h
  exact getD_mem _ _ (Nat.mod_lt _ hlen)

theorem spawn_block_exists_ok (t : Twenty) (v c : Nat)
    (h : Twenty.emptyCellsOf t.playGrid ≠ []) :
    ∃ t', Twenty.spawn_block t v c = .ok t' :=
  ⟨_, spawn_block_ok t v c h⟩

/-- Everything a successful spawn does: it picks an empty cell and a value
from {2, 4}, writes the value there, and registers exactly one new block
at that cell; well-formedness is preserved, the grid total grows by the
value, and one empty cell is consumed. -/
theorem spawn_ok_spec {t t' : Twenty} {v c : Nat}
    (hw : WellFormed t) (hok : Twenty.spawn_block t v c = .ok t') :
    ∃ p val, p ∈ Twenty.emptyCellsOf t.playGrid ∧ (val = 2 ∨ val = 4) ∧
      t' = ⟨t.blocks ++ [⟨p.1, p.2, val, 0⟩], gridSet t.playGrid p.1 p.2 val⟩ ∧
      WellFormed t' ∧
      gridSum t'.playGrid = gridSum t.playGrid + val ∧
      zeros t'.playGrid + 1 = zeros t.playGrid ∧
      t'.blocks.length = t.blocks.length + 1 := by
  by_cases h : Twenty.emptyCellsOf t.playGrid = []
  · rw [spawn_block_error t v c h] at hok
    exact Except.noConfusion hok
  · rw [spawn_block_ok t v c h] at hok
    obtain rfl := (Except.ok.inj hok).symm
    obtain ⟨hs, hb, hpw, hcov⟩ := hw
    have hp := chosen_mem t.playGrid c h
    obtain ⟨hp1, hp2, hp0⟩ := (mem_emptyCellsOf t.playGrid _).1 hp
    have hval := spawn_value v
    have hvnz : Twenty.SPAWNABLE.getD (v % Twenty.SPAWNABLE.length) 0 ≠ 0 := by
      rcases hval with hv | hv <;> rw [hv] <;> omega
    refine ⟨(Twenty.emptyCellsOf t.playGrid).getD
        (c % (Twenty.emptyCellsOf t.playGrid).length) (0, 0),
      Twenty.SPAWNABLE.getD (v % Twenty.SPAWNABLE.length) 0,
      hp, hval, rfl, ⟨gridShape_set _ _ _ _ hs hp1, ?_, ?_, ?_⟩, ?_, ?_, ?_⟩
    · intro b' hb'
      rcases List.mem_append.1 hb' with hold | hnew
      · obtain ⟨h1, h2, h3, h4⟩ := hb b' hold
        have hne := block_not_at_zero hb hold hp0
        exact ⟨h1, h2, h3, by rw [gridGet_set_ne _ _ hne]; exact h4⟩
      · rw [List.mem_singleton.1 hnew]
        exact ⟨hp1, hp2, hvnz,
          gridGet_set_self _ _ _ _ hs hp1 hp2⟩
    · refine List.pairwise_append.2 ⟨hpw, List.pairwise_singleton _ _, ?_⟩
      intro a ha b' hb'
      rw [List.mem_singleton.1 hb']
      exact block_not_at_zero hb ha hp0
    · intro x hx y hy hnz
      by_cases hxy : x = ((Twenty.emptyCellsOf t.playGrid).getD
          (c % (Twenty.emptyCellsOf t.playGrid).length) (0, 0)).1 ∧
          y = ((Twenty.emptyCellsOf t.playGrid).getD
            (c % (Twenty.emptyCellsOf t.playGrid).length) (0, 0)).2
      · refine ⟨_, List.mem_append_right _ (List.mem_singleton_self _), ?_, ?_⟩
        · exact hxy.1.symm
        · exact hxy.2.symm
      · rw [gridGet_set_ne _ _ hxy] at hnz
        obtain ⟨b1, hb1, hb1r, hb1c⟩ := hcov x hx y hy hnz
        exact ⟨b1, List.mem_append_left _ hb1, hb1r, hb1c⟩
    · show gridSum (gridSet t.playGrid
          ((Twenty.emptyCellsOf t.playGrid).getD
            (c % (Twenty.emptyCellsOf t.playGrid).length) (0, 0)).1
          ((Twenty.emptyCellsOf t.playGrid).getD
            (c % (Twenty.emptyCellsOf t.playGrid).length) (0, 0)).2
          (Twenty.SPAWNABLE.getD (v % Twenty.SPAWNABLE.length) 0))
        = gridSum t.playGrid + Twenty.SPAWNABLE.getD (v % Twenty.SPAWNABLE.length) 0
      have hsum := gridSum_set t.playGrid _ _
        (Twenty.SPAWNABLE.getD (v % Twenty.SPAWNABLE.length) 0) hs hp1 hp2
      rw [hp0] at hsum
      omega
    · show zeros (gridSet t.playGrid
          ((Twenty.emptyCellsOf t.playGrid).getD
            (c % (Twenty.emptyCellsOf t.playGrid).length) (0, 0)).1
          ((Twenty.emptyCellsOf t.playGrid).getD
            (c % (Twenty.emptyCellsOf t.playGrid).length) (0, 0)).2
          (Twenty.SPAWNABLE.getD (v % Twenty.SPAWNABLE.length) 0)) + 1
        = zeros t.playGrid
      have hz := zeros_set t.playGrid _ _
        (Twenty.SPAWNABLE.getD (v % Twenty.SPAWNABLE.length) 0) hs hp1 hp2
      rw [if_pos hp0, if_neg hvnz] at hz
      omega
    · simp

theorem move_eq (t : Twenty) (d : String) (v c : Nat) :
    Twenty.move t d v c
      = if t.playGrid ≠ (Twenty.sweepOf t d).playGrid
        then Twenty.spawn_block (Twenty.sweepOf t d) v c
        else .ok (Twenty.sweepOf t d) := rfl

theorem move_changed {t : Twenty} (d : String) (v c : Nat)
    (h : (Twenty.sweepOf t d).playGrid ≠ t.playGrid) :
    Twenty.move t d v c = Twenty.spawn_block (Twenty.sweepOf t d) v c := by
  rw [move_eq, if_pos (Ne.symm h)]

theorem move_unchanged {t : Twenty} (d : String) (v c : Nat)
    (h : (Twenty.sweepOf t d).playGrid = t.playGrid) :
    Twenty.move t d v c = .ok (Twenty.sweepOf t d) := by
  rw [move_eq, if_neg (fun hne => hne h.symm)]

/-- Main facts about any directional sweep from a well-formed state. -/
theorem sweep_main {t : Twenty} (d : String) (hw : WellFormed t) :
    WellFormed (Twenty.sweepOf t d) ∧
    gridSum (Twenty.sweepOf t d).playGrid = gridSum t.playGrid ∧
    (Twenty.sweepOf t d = t ∨
      (zeros t.playGrid ≤ zeros (Twenty.sweepOf t d).playGrid ∧
       1 ≤ zeros (Twenty.sweepOf t d).playGrid ∧
       ∃ w, wsum (Twenty.sweepOf t d).playGrid w < wsum t.playGrid w)) := by
  obtain ⟨w, hrel⟩ := sweepOf_rel t d
  obtain ⟨h1, h2, h3⟩ := hrel hw
  refine ⟨h1, h2, ?_⟩
  rcases h3 with hpair | ⟨hz1, hz2, hws⟩
  · left
    rw [Prod.mk.injEq] at hpair
    exact twenty_ext hpair.2 hpair.1
  · right
    exact ⟨hz1, hz2, w, hws⟩

/-- A sweep that leaves the grid unchanged leaves the whole state
unchanged (blocks included). -/
theorem sweep_noop {t : Twenty} (d : String) (hw : WellFormed t)
    (h : (Twenty.sweepOf t d).playGrid = t.playGrid) :
    Twenty.sweepOf t d = t := by
  rcases (sweep_main d hw).2.2 with he | ⟨_, _, w, hws⟩
  · exact he
  · rw [h] at hws
    exact absurd hws (lt_irrefl _)

/-- A sweep that changes the grid leaves at least one empty cell. -/
theorem sweep_changed_zeros {t : Twenty} (d : String) (hw : WellFormed t)
    (h : (Twenty.sweepOf t d).playGrid ≠ t.playGrid) :
    1 ≤ zeros (Twenty.sweepOf t d).playGrid := by
  rcases (sweep_main d hw).2.2 with he | ⟨_, hz, _⟩
  · exact absurd (by rw [he]) h
  · exact hz

theorem emptyCells_of_zeros {g : Grid} (h : 1 ≤ zeros g) :
    Twenty.emptyCellsOf g ≠ [] := by
  obtain ⟨r, c, hr, hc, h0⟩ := exists_zero_of_zeros_pos g h
  exact emptyCellsOf_ne_nil g hr hc h0

/-! ### Claim theorems -/

/-- C3: every engine operation (`__init__`, `spawn_block`, `move` with any
direction string) preserves the grid / tile-registry consistency
invariant `WellFormed`: a cell holds a non-zero value iff exactly one
registered block sits there carrying that value, and no two registered
blocks share a cell. -/
theorem invariant_preservation :
    (∀ v1 c1 v2 c2 t, Twenty.newGame v1 c1 v2 c2 = .ok t → WellFormed t) ∧
    (∀ t v c t', WellFormed t → Twenty.spawn_block t v c = .ok t' →
      WellFormed t') ∧
    (∀ t d v c t', WellFormed t → Twenty.move t d v c = .ok t' →
      WellFormed t') := by
  have hspawn : ∀ t v c t', WellFormed t → Twenty.spawn_block t v c = .ok t' →
      WellFormed t' := by
    intro t v c t' hw hok
    obtain ⟨_, _, _, _, _, hwf, _⟩ := spawn_ok_spec hw hok
    exact hwf
  refine ⟨?_, hspawn, ?_⟩
  · intro v1 c1 v2 c2 t hok
    have hw0 : WellFormed
        (⟨[], [[0,0,0,0],[0,0,0,0],[0,0,0,0],[0,0,0,0]]⟩ : Twenty) := by decide
    have hne0 : Twenty.emptyCellsOf
        ((⟨[], [[0,0,0,0],[0,0,0,0],[0,0,0,0],[0,0,0,0]]⟩ : Twenty)).playGrid
        ≠ [] := by decide
    obtain ⟨t1, h1⟩ := spawn_block_exists_ok
      ⟨[], [[0,0,0,0],[0,0,0,0],[0,0,0,0],[0,0,0,0]]⟩ v1 c1 hne0
    have hok' : Twenty.spawn_block t1 v2 c2 = .ok t := by
      have hng : Twenty.newGame v1 c1 v2 c2 = Twenty.spawn_block t1 v2 c2 := by
        show (Twenty.spawn_block
            ⟨[], [[0,0,0,0],[0,0,0,0],[0,0,0,0],[0,0,0,0]]⟩ v1 c1
          >>= fun u => Twenty.spawn_block u v2 c2)
          = Twenty.spawn_block t1 v2 c2
        rw [h1]
        rfl
      rw [← hng]
      exact hok
    exact hspawn t1 v2 c2 t (hspawn _ v1 c1 t1 hw0 h1) hok'
  · intro t d v c t' hw hok
    by_cases hch : (Twenty.sweepOf t d).playGrid = t.playGrid
    · rw [move_unchanged d v c hch] at hok
      obtain rfl := Except.ok.inj hok
      exact (sweep_main d hw).1
    · rw [move_changed d v c hch] at hok
      exact hspawn _ v c t' (sweep_main d hw).1 hok

/-- C9: a fresh game (`Twenty.__init__`) starts from the all-zero 4×4 grid
and spawns twice: whatever the random draws, it succeeds and yields
exactly 2 registered tiles, each with value 2 or 4, at two distinct
cells, with the other 14 cells still 0 (and the state well-formed). -/
theorem new_game_spec :
    ∀ v1 c1 v2 c2 : Nat, ∃ t : Twenty,
      Twenty.newGame v1 c1 v2 c2 = .ok t ∧
      t.blocks.length = 2 ∧
      (∀ b ∈ t.blocks, b.val = 2 ∨ b.val = 4) ∧
      t.blocks.Pairwise posDistinct ∧
      zeros t.playGrid = 14 ∧
      WellFormed t := by
  intro v1 c1 v2 c2
  have hw0 : WellFormed
      (⟨[], [[0,0,0,0],[0,0,0,0],[0,0,0,0],[0,0,0,0]]⟩ : Twenty) := by decide
  have hne0 : Twenty.emptyCellsOf
      ((⟨[], [[0,0,0,0],[0,0,0,0],[0,0,0,0],[0,0,0,0]]⟩ : Twenty)).playGrid
      ≠ [] := by decide
  have hz0 : zeros
      ((⟨[], [[0,0,0,0],[0,0,0,0],[0,0,0,0],[0,0,0,0]]⟩ : Twenty)).playGrid
      = 16 := by decide
  obtain ⟨t1, h1⟩ := spawn_block_exists_ok
    ⟨[], [[0,0,0,0],[0,0,0,0],[0,0,0,0],[0,0,0,0]]⟩ v1 c1 hne0
  obtain ⟨p1, val1, hp1, hval1, ht1, hw1, hsum1, hz1, hlen1⟩ :=
    spawn_ok_spec hw0 h1
  have hne1 : Twenty.emptyCellsOf t1.playGrid ≠ [] :=
    emptyCells_of_zeros (by omega)
  obtain ⟨t2, h2⟩ := spawn_block_exists_ok t1 v2 c2 hne1
  obtain ⟨p2, val2, hp2, hval2, ht2, hw2, hsum2, hz2, hlen2⟩ :=
    spawn_ok_spec hw1 h2
  have hng : Twenty.newGame v1 c1 v2 c2 = .ok t2 := by
    show (Twenty.spawn_block
        ⟨[], [[0,0,0,0],[0,0,0,0],[0,0,0,0],[0,0,0,0]]⟩ v1 c1
      >>= fun u => Twenty.spawn_block u v2 c2) = .ok t2
    rw [h1]
    show Twenty.spawn_block t1 v2 c2 = .ok t2
    exact h2
  have hb1 : t1.blocks = [⟨p1.1, p1.2, val1, 0⟩] := by
    rw [ht1]
    rfl
  have hb2 : t2.blocks = t1.blocks ++ [⟨p2.1, p2.2, val2, 0⟩] := by
    rw [ht2]
  have hl0 : ((⟨[], [[0,0,0,0],[0,0,0,0],[0,0,0,0],[0,0,0,0]]⟩ : Twenty)).blocks.length
      = 0 := rfl
  refine ⟨t2, hng, by omega, ?_, hw2.2.2.1, by omega, hw2⟩
  intro b hb
  rw [hb2, hb1] at hb
  rcases List.mem_append.1 hb with hbl | hbr
  · rw [List.mem_singleton.1 hbl]
    exact hval1
  · rw [List.mem_singleton.1 hbr]
    exact hval2

/-- C9 witness: concrete random draws. -/
theorem new_game_spec_witness :
    ∃ t : Twenty,
      Twenty.newGame 0 0 1 3 = .ok t ∧
      t.blocks.length = 2 ∧
      (∀ b ∈ t.blocks, b.val = 2 ∨ b.val = 4) ∧
      t.blocks.Pairwise posDistinct ∧
      zeros t.playGrid = 14 ∧
      WellFormed t :=
  new_game_spec 0 0 1 3

/-- C4: a directional sweep never changes the total of the grid (slides
move values, merges turn two equal values into their sum); a full `move`
call therefore adds exactly the spawned value (2 or 4) when the sweep
changed the grid, and nothing when it did not. -/
theorem sum_conservation :
    ∀ t d v c, WellFormed t →
      (d = "up" ∨ d = "down" ∨ d = "left" ∨ d = "right") →
      gridSum (Twenty.sweepOf t d).playGrid = gridSum t.playGrid ∧
      ∀ t', Twenty.move t d v c = .ok t' →
        (((Twenty.sweepOf t d).playGrid ≠ t.playGrid →
           ∃ w, (w = 2 ∨ w = 4) ∧
             gridSum t'.playGrid = gridSum t.playGrid + w) ∧
         ((Twenty.sweepOf t d).playGrid = t.playGrid →
           gridSum t'.playGrid = gridSum t.playGrid)) := by
  intro t d v c hw _hd
  have hmain := sweep_main (t := t) d hw
  refine ⟨hmain.2.1, ?_⟩
  intro t' hok
  constructor
  · intro hch
    rw [move_changed d v c hch] at hok
    obtain ⟨p, val, _, hval, _, _, hsum, _, _⟩ := spawn_ok_spec hmain.1 hok
    exact ⟨val, hval, by rw [hsum, hmain.2.1]⟩
  · intro hch
    rw [move_unchanged d v c hch] at hok
    obtain rfl := Except.ok.inj hok
    exact hmain.2.1

/-- C6: a move whose result grid equals the pre-move grid spawns nothing
and returns the state completely unchanged, every block's row, column and
value included. -/
theorem noop_move_identity :
    ∀ t d v c t', WellFormed t →
      (d = "up" ∨ d = "down" ∨ d = "left" ∨ d = "right") →
      Twenty.move t d v c = .ok t' → t'.playGrid = t.playGrid → t' = t := by
  intro t d v c t' hw _hd hok hgrid
  by_cases hch : (Twenty.sweepOf t d).playGrid = t.playGrid
  · rw [move_unchanged d v c hch] at hok
    obtain rfl := Except.ok.inj hok
    exact sweep_noop d hw hch
  · rw [move_changed d v c hch] at hok
    obtain ⟨p, val, _, hval, _, _, hsum, _, _⟩ :=
      spawn_ok_spec (sweep_main d hw).1 hok
    have hs := (sweep_main d hw).2.1
    have heq : gridSum t'.playGrid = gridSum t.playGrid := by rw [hgrid]
    rcases hval with h2 | h4 <;> omega

/-- C5: in `move`, the spawn fires iff the post-sweep grid differs from
the deep-copied pre-move grid (a full-state list comparison): when it
differs, `move` is exactly the sweep followed by `spawn_block` and the
returned registry has exactly one extra block; when it is equal, `move`
returns the untouched original state and registers nothing. -/
theorem spawn_iff_grid_changed :
    ∀ t d v c, WellFormed t →
      (d = "up" ∨ d = "down" ∨ d = "left" ∨ d = "right") →
      (((Twenty.sweepOf t d).playGrid ≠ t.playGrid →
          Twenty.move t d v c = Twenty.spawn_block (Twenty.sweepOf t d) v c ∧
          ∃ t', Twenty.move t d v c = .ok t' ∧
            t'.blocks.length = (Twenty.sweepOf t d).blocks.length + 1) ∧
       ((Twenty.sweepOf t d).playGrid = t.playGrid →
          Twenty.move t d v c = .ok t ∧ Twenty.sweepOf t d = t)) := by
  intro t d v c hw _hd
  constructor
  · intro hch
    refine ⟨move_changed d v c hch, ?_⟩
    have hz := sweep_changed_zeros d hw hch
    obtain ⟨t', hok⟩ := spawn_block_exists_ok _ v c (emptyCells_of_zeros hz)
    obtain ⟨_, _, _, _, _, _, _, _, hlen⟩ :=
      spawn_ok_spec (sweep_main d hw).1 hok
    exact ⟨t', by rw [move_changed d v c hch]; exact hok, hlen⟩
  · intro hch
    have hnoop := sweep_noop d hw hch
    exact ⟨by rw [move_unchanged d v c hch, hnoop], hnoop⟩

/-- C10: whenever the sweep changed the grid, the grid still has an empty
cell when `move` invokes `spawn_block`, so the spawn's `random.choice`
never sees an empty candidate list and `move` returns normally. -/
theorem move_spawn_safe :
    ∀ t d v c, WellFormed t →
      (Twenty.sweepOf t d).playGrid ≠ t.playGrid →
      Twenty.emptyCellsOf (Twenty.sweepOf t d).playGrid ≠ [] ∧
      ∃ t', Twenty.move t d v c = .ok t' := by
  intro t d v c hw hch
  have hz := sweep_changed_zeros d hw hch
  have hne := emptyCells_of_zeros hz
  obtain ⟨t', hok⟩ := spawn_block_exists_ok _ v c hne
  exact ⟨hne, t', by rw [move_changed d v c hch]; exact hok⟩

/-- C7 (amended): `move` performs no direction validation; a direction
other than the four named strings runs none of the sweep blocks, the
full-state comparison sees an unchanged grid, no spawn fires, and the
call returns the state unchanged without raising anything. -/
theorem invalid_direction_silent_noop :
    ∀ t d v c, d ≠ "up" → d ≠ "down" → d ≠ "right" → d ≠ "left" →
      Twenty.move t d v c = Except.ok t := by
  intro t d v c h1 h2 h3 h4
  have hs := sweepOf_invalid t d h1 h2 h3 h4
  rw [move_unchanged d v c (by rw [hs]), hs]

/-- C8: `spawn_block` fails (Python `IndexError` from `random.choice` on
the empty candidate list — the spec's `GridFull` situation) exactly when
the grid has no empty cell; otherwise it succeeds, writing a value from
{2, 4} into a cell drawn from the row-major list of all empty cells and
registering exactly one new block there; every empty cell and both
values are reachable choices of the random draws. -/
theorem spawn_block_spec :
    ∀ t v c,
      (Twenty.emptyCellsOf t.playGrid = [] →
        Twenty.spawn_block t v c = .error .indexError) ∧
      (Twenty.emptyCellsOf t.playGrid ≠ [] →
        ∃ p val, p ∈ Twenty.emptyCellsOf t.playGrid ∧ (val = 2 ∨ val = 4) ∧
          gridGet t.playGrid p.1 p.2 = 0 ∧
          Twenty.spawn_block t v c
            = .ok ⟨t.blocks ++ [⟨p.1, p.2, val, 0⟩],
                gridSet t.playGrid p.1 p.2 val⟩) ∧
      (∀ p ∈ Twenty.emptyCellsOf t.playGrid, ∀ val, (val = 2 ∨ val = 4) →
        ∃ v' c', Twenty.spawn_block t v' c'
            = .ok ⟨t.blocks ++ [⟨p.1, p.2, val, 0⟩],
                gridSet t.playGrid p.1 p.2 val⟩) := by
  intro t v c
  refine ⟨spawn_block_error t v c, ?_, ?_⟩
  · intro h
    exact ⟨(Twenty.emptyCellsOf t.playGrid).getD
        (c % (Twenty.emptyCellsOf t.playGrid).length) (0, 0),
      Twenty.SPAWNABLE.getD (v % Twenty.SPAWNABLE.length) 0,
      chosen_mem t.playGrid c h, spawn_value v,
      ((mem_emptyCellsOf t.playGrid _).1 (chosen_mem t.playGrid c h)).2.2,
      spawn_block_ok t v c h⟩
  · intro p hp val hval
    obtain ⟨⟨i, hi⟩, hpi⟩ := List.mem_iff_get.1 hp
    rw [List.get_eq_getElem] at hpi
    refine ⟨if val = 2 then 0 else 1, i, ?_⟩
    have hne : Twenty.emptyCellsOf t.playGrid ≠ [] := List.ne_nil_of_mem hp
    rw [spawn_block_ok t (if val = 2 then 0 else 1) i hne]
    have hmod : i % (Twenty.emptyCellsOf t.playGrid).length = i :=
      Nat.mod_eq_of_lt hi
    have hgd : (Twenty.emptyCellsOf t.playGrid).getD
        (i % (Twenty.emptyCellsOf t.playGrid).length) (0, 0) = p := by
      rw [hmod, List.getD_eq_getElem _ _ hi]
      exact hpi
    have hsv : Twenty.SPAWNABLE.getD
        ((if val = 2 then 0 else 1) % Twenty.SPAWNABLE.length) 0 = val := by
      rcases hval with h2 | h4
      · rw [h2]
        rfl
      · rw [h4]
        rfl
    rw [hgd, hsv]

/-- The spec's Scenario-B state: grid row 0 is `[2, 0, 2, 4]` (all other
rows empty), with the three non-zero cells backed by registered blocks.
It is well-formed (`scenarioB_code_result`). -/
def rowB : Twenty :=
  ⟨[⟨0, 0, 2, 0⟩, ⟨0, 2, 2, 0⟩, ⟨0, 3, 4, 0⟩],
   [[2, 0, 2, 4], [0, 0, 0, 0], [0, 0, 0, 0], [0, 0, 0, 0]]⟩

/-- C1 (code evaluation at the failing input): on the well-formed
Scenario-B state, the `left` sweep of `move` produces row 0 equal to
`[8, 0, 0, 0]` — not the `[4, 4, 0, 0]` the claim (and classic 2048)
requires: the two 2-tiles merge to 4 at column 0, and then the
pre-existing 4-tile slides in and merges *again* with that fresh 4,
because the sweep keeps no "already merged this move" bookkeeping. -/
theorem scenarioB_code_result :
    WellFormed rowB ∧
    (Twenty.sweepOf rowB "left").playGrid
      = [[8, 0, 0, 0], [0, 0, 0, 0], [0, 0, 0, 0], [0, 0, 0, 0]] ∧
    (Twenty.sweepOf rowB "left").playGrid.getD 0 [] ≠ [4, 4, 0, 0] := by
  refine ⟨by decide, rfl, by decide⟩

/-- C2 (code evaluation at the failing input): in the single `move`
(`left`) call on the well-formed Scenario-B state, the block that ends at
cell (0,0) has `Block.double` invoked twice (its ghost `dbl` counter,
starting at 0 for every block of the state, reaches 2): value 2 → 4 → 8
within one move. -/
theorem block_doubled_twice :
    WellFormed rowB ∧
    (∀ b ∈ rowB.blocks, b.dbl = 0) ∧
    ∃ b ∈ (Twenty.sweepOf rowB "left").blocks, 2 ≤ b.dbl := by
  refine ⟨by decide, by decide, by decide⟩

/-- C7 counterexample: `move` with the unrecognized direction `"diag"`
does not fail — it returns the state unchanged (`Except.ok`), raising no
`InvalidDirection` (no such check exists in the code). -/
theorem invalid_direction_counterexample :
    Twenty.move rowB "diag" 0 0 = Except.ok rowB := rfl

/-- C7 witness for the amended claim. -/
theorem invalid_direction_silent_noop_witness :
    Twenty.move rowB "diagonal" 0 0 = Except.ok rowB :=
  invalid_direction_silent_noop rowB "diagonal" 0 0
    (by decide) (by decide) (by decide) (by decide)

/-- C3 witness: a concrete well-formed state moved left. -/
theorem invariant_preservation_witness :
    ∃ t', Twenty.move rowB "left" 0 0 = Except.ok t' ∧ WellFormed t' :=
  ⟨⟨[⟨0, 0, 8, 2⟩, ⟨0, 1, 2, 0⟩],
    [[8, 2, 0, 0], [0, 0, 0, 0], [0, 0, 0, 0], [0, 0, 0, 0]]⟩,
   rfl,
   invariant_preservation.2.2 rowB "left" 0 0 _ (by decide) rfl⟩

/-- C4 witness: the left move on the Scenario-B state adds exactly the
spawned value to the grid total. -/
theorem sum_conservation_witness :
    ∃ w, (w = 2 ∨ w = 4) ∧
      gridSum ((⟨[⟨0, 0, 8, 2⟩, ⟨0, 1, 2, 0⟩],
          [[8, 2, 0, 0], [0, 0, 0, 0], [0, 0, 0, 0], [0, 0, 0, 0]]⟩ :
        Twenty)).playGrid
        = gridSum rowB.playGrid + w :=
  ((sum_conservation rowB "left" 0 0 (by decide)
      (Or.inr (Or.inr (Or.inl rfl)))).2 _ rfl).1 (by decide)

/-- C5 witness. -/
theorem spawn_iff_grid_changed_witness :
    Twenty.move rowB "left" 0 0
        = Twenty.spawn_block (Twenty.sweepOf rowB "left") 0 0 ∧
    ∃ t', Twenty.move rowB "left" 0 0 = Except.ok t' ∧
      t'.blocks.length = (Twenty.sweepOf rowB "left").blocks.length + 1 :=
  (spawn_iff_grid_changed rowB "left" 0 0 (by decide)
    (Or.inr (Or.inr (Or.inl rfl)))).1 (by decide)

/-- C6 witness: a left move on a state already compacted left is a
complete no-op. -/
theorem noop_move_identity_witness :
    (⟨[⟨0, 0, 2, 0⟩],
      [[2, 0, 0, 0], [0, 0, 0, 0], [0, 0, 0, 0], [0, 0, 0, 0]]⟩ : Twenty)
      = ⟨[⟨0, 0, 2, 0⟩],
        [[2, 0, 0, 0], [0, 0, 0, 0], [0, 0, 0, 0], [0, 0, 0, 0]]⟩ :=
  noop_move_identity _ "left" 0 0 _ (by decide)
    (Or.inr (Or.inr (Or.inl rfl))) rfl rfl

/-- C8 witness: spawning on the Scenario-B state. -/
theorem spawn_block_spec_witness :
    ∃ p val, p ∈ Twenty.emptyCellsOf rowB.playGrid ∧ (val = 2 ∨ val = 4) ∧
      gridGet rowB.playGrid p.1 p.2 = 0 ∧
      Twenty.spawn_block rowB 0 0
        = .ok ⟨rowB.blocks ++ [⟨p.1, p.2, val, 0⟩],
            gridSet rowB.playGrid p.1 p.2 val⟩ :=
  (spawn_block_spec rowB 0 0).2.1 (by decide)

/-- C10 witness. -/
theorem move_spawn_safe_witness :
    Twenty.emptyCellsOf (Twenty.sweepOf rowB "left").playGrid ≠ [] ∧
    ∃ t', Twenty.move rowB "left" 0 0 = Except.ok t' :=
  move_spawn_safe rowB "left" 0 0 (by decide) (by decide)
